import Mathlib

/-!
Verification development for the DML data-mapper compiler
(`src/mapper.py` of wojcio/podman-python-mapper: `Tokenizer`, `Parser`,
`CodeGenerator`), shallowly embedded over `List Char`.

Conventions of the embedding:
* text is `List Char`; `chars s` converts a Lean string literal;
* Python values flowing through the pipeline are modelled by `Py`
  (`None`, `str`, `int`, `bool`, and float literals kept opaque as the
  characters they were parsed from — no float arithmetic is modelled);
* the tokenizer's regular expressions are modelled per pattern, in the
  exact priority order of `Tokenizer.TOKENS`, first match wins;
* the parser's mutable cursor becomes an explicit position `Nat`; the
  recursive-descent functions take a fuel argument because the Python
  code genuinely fails to terminate on some token streams (see the
  `rulesLoop` development below), so no well-founded measure exists.
-/

set_option maxHeartbeats 1000000
set_option maxRecDepth 8192

/-- Convert a string literal to the `List Char` working representation. -/
def chars (s : String) : List Char := s.data

/-- The double-quote character. -/
def cQuote : Char := Char.ofNat 34

/-- The apostrophe (single-quote) character. -/
def cApos : Char := Char.ofNat 39

/-- The opening-brace character. -/
def cLBrace : Char := Char.ofNat 123

/-- The closing-brace character. -/
def cRBrace : Char := Char.ofNat 125

/-- The backslash character. -/
def cBackslash : Char := Char.ofNat 92

/-- The newline character. -/
def cNl : Char := Char.ofNat 10

/-- ASCII lower-case letter test (regex class `[a-z]`). -/
def isLowerA (c : Char) : Bool := 'a' ≤ c && c ≤ 'z'

/-- ASCII upper-case letter test (regex class `[A-Z]`). -/
def isUpperA (c : Char) : Bool := 'A' ≤ c && c ≤ 'Z'

/-- ASCII letter test (regex class `[a-zA-Z]`). -/
def isLetterA (c : Char) : Bool := isLowerA c || isUpperA c

/-- ASCII digit test (regex class `[0-9]`, `\d`), written as the
ten-way alternative it denotes. -/
def isDigitA (c : Char) : Bool :=
  c = '0' || c = '1' || c = '2' || c = '3' || c = '4' ||
  c = '5' || c = '6' || c = '7' || c = '8' || c = '9'

/-- Regex word-character test `\w` = `[a-zA-Z0-9_]` (ASCII fragment). -/
def isWordA (c : Char) : Bool := isLetterA c || isDigitA c || c = '_'

/-- Continuation class of the IDENT pattern: `[a-zA-Z0-9_/]`. -/
def isIdentCont (c : Char) : Bool := isWordA c || c = '/'

/-- Python regex whitespace `\s` (ASCII fragment). -/
def isSpaceA (c : Char) : Bool :=
  c = ' ' || c = Char.ofNat 9 || c = cNl || c = Char.ofNat 13 ||
  c = Char.ofNat 11 || c = Char.ofNat 12

/-- ASCII lower-casing of a character, as the case-insensitive regex
classes `[Mm][Aa]...` compare letters. -/
def toLowerA (c : Char) : Char :=
  if isUpperA c then Char.ofNat (c.toNat + 32) else c

/-- Case-insensitive prefix test used by the keyword patterns. -/
def ciPref : List Char → List Char → Bool
  | [], _ => true
  | _ :: _, [] => false
  | k :: ks, c :: cs => (toLowerA c = toLowerA k) && ciPref ks cs

/-- Token kinds, exactly the kind names of `Tokenizer.TOKENS`. -/
inductive TokKind where
  | MAPPING | SOURCE | TARGET | RULES | XML | CSV | DB | EDI | JSON
  | COMPONENT | IF | ELSE | TRANSFORM | DEFAULT | AS | MAP | LOOP
  | AGGREGATE | FUNCTION | WHEN | THEN
  | LBRACE | RBRACE | LPAREN | RPAREN | LBRACKET | RBRACKET
  | ARROW | COMMA | COLON | GT | LT | GE | LE | EQ | ASSIGN
  | PLUS | MINUS | STAR | SLASH | PERCENT | DOT
  | IDENT | STRING | NUMBER | SLASHPATH | WS | COMMENT
deriving DecidableEq

/-- One lexed token: its kind and matched lexeme. -/
structure Token where
  kind : TokKind
  lexeme : List Char
deriving DecidableEq

/-- Matcher for a (case-insensitive) keyword pattern; `wb` records a
trailing `\b` in the pattern (boundary after the keyword's last letter
holds iff the next character is not a word character, or at end). -/
def matchKw (kw : List Char) (wb : Bool) (s : List Char) : Option Nat :=
  if ciPref kw s then
    if wb then
      match s.drop kw.length with
      | [] => some kw.length
      | c :: _ => if isWordA c then none else some kw.length
    else some kw.length
  else none

/-- Matcher for a literal (case-sensitive) symbol pattern. -/
def matchLit (lit : List Char) (s : List Char) : Option Nat :=
  if lit.isPrefixOf s then some lit.length else none

/-- Matcher for `IDENT`: `[a-zA-Z_][a-zA-Z0-9_/]*|[0-9]+[a-zA-Z0-9_/]*`.
The first alternative is tried first, as Python's regex engine does. -/
def matchIdent (s : List Char) : Option Nat :=
  match s with
  | [] => none
  | c :: rest =>
    if isLetterA c || c = '_' then
      some (1 + (rest.takeWhile isIdentCont).length)
    else if isDigitA c then
      let d := (s.takeWhile isDigitA).length
      some (d + ((s.drop d).takeWhile isIdentCont).length)
    else none

/-- Matcher for `STRING`: `"[^"]*"|'[^']*'` (no escape processing). -/
def matchString (s : List Char) : Option Nat :=
  match s with
  | c :: rest =>
    if c = cQuote then (rest.findIdx? (· = cQuote)).map (· + 2)
    else if c = cApos then (rest.findIdx? (· = cApos)).map (· + 2)
    else none
  | [] => none

/-- The `\d+(\.\d+)?` tail of the `NUMBER` pattern: one-or-more
digits, then optionally a point and one-or-more digits (the optional
group is skipped when it cannot match — regex backtracking). -/
def matchDigits (s1 : List Char) : Option Nat :=
  if (s1.takeWhile isDigitA).length = 0 then none
  else
    match s1.drop (s1.takeWhile isDigitA).length with
    | '.' :: r2 =>
      if (r2.takeWhile isDigitA).length = 0 then some (s1.takeWhile isDigitA).length
      else some ((s1.takeWhile isDigitA).length + 1 + (r2.takeWhile isDigitA).length)
    | _ => some (s1.takeWhile isDigitA).length

/-- Matcher for `NUMBER`: `-?\d+(\.\d+)?` (optional leading minus,
then the digit tail). -/
def matchNumber (s : List Char) : Option Nat :=
  match s with
  | '-' :: r => (matchDigits r).map (· + 1)
  | _ => matchDigits s

/-- Character class of the `SLASHPATH` pattern: word character, slash
or dash. -/
def isSlashPathC (c : Char) : Bool := isIdentCont c || c = '-'

/-- Matcher for `SLASHPATH` (one-or-more of the word-slash-dash class,
then a literal slash, then zero-or-more identifier characters). The
greedy one-or-more run backtracks to the right-most split whose next
character is a literal slash (Python regex backtracking). This pattern
is unreachable — every character it can start with is claimed by an
earlier pattern — but it is kept for faithfulness. -/
def matchSlashPath (s : List Char) : Option Nat :=
  let m := (s.takeWhile isSlashPathC).length
  if m = 0 then none
  else
    match (List.range m).foldl
        (fun acc j => if 1 ≤ j && s.get? j = some '/' then some j else acc)
        none with
    | some j => some (j + 1 + ((s.drop (j + 1)).takeWhile isIdentCont).length)
    | none => none

/-- Matcher for `WS`: `\s+`. -/
def matchWS (s : List Char) : Option Nat :=
  let n := (s.takeWhile isSpaceA).length
  if n = 0 then none else some n

/-- Matcher for `COMMENT`: `#.*$` in multiline mode (`.` stops before a
newline; `$` then matches). -/
def matchComment (s : List Char) : Option Nat :=
  match s with
  | '#' :: rest => some (1 + (rest.takeWhile (· ≠ cNl)).length)
  | _ => none

/-- The ordered token table `Tokenizer.TOKENS`, one matcher per pattern,
in the exact source order (first match wins). -/
def TOKENS : List (TokKind × (List Char → Option Nat)) :=
  [ (.MAPPING, matchKw (chars "mapping") true),
    (.SOURCE, matchKw (chars "source") true),
    (.TARGET, matchKw (chars "target") true),
    (.RULES, matchKw (chars "rules") true),
    (.XML, matchKw (chars "xml") true),
    (.CSV, matchKw (chars "csv") true),
    (.DB, matchKw (chars "db") true),
    (.EDI, matchKw (chars "edi") true),
    (.JSON, matchKw (chars "json") true),
    (.COMPONENT, matchKw (chars "component") true),
    (.IF, matchKw (chars "if") false),
    (.ELSE, matchKw (chars "else") false),
    (.TRANSFORM, matchKw (chars "transform") false),
    (.DEFAULT, matchKw (chars "default") false),
    (.AS, matchKw (chars "as") true),
    (.MAP, matchKw (chars "map") true),
    (.LOOP, matchKw (chars "loop") false),
    (.AGGREGATE, matchKw (chars "aggregate") false),
    (.FUNCTION, matchKw (chars "function") false),
    (.WHEN, matchKw (chars "when") false),
    (.THEN, matchKw (chars "then") false),
    (.LBRACE, matchLit [cLBrace]),
    (.RBRACE, matchLit [cRBrace]),
    (.LPAREN, matchLit (chars "(")),
    (.RPAREN, matchLit (chars ")")),
    (.LBRACKET, matchLit (chars "[")),
    (.RBRACKET, matchLit (chars "]")),
    (.ARROW, matchLit (chars "->")),
    (.COMMA, matchLit (chars ",")),
    (.COLON, matchLit (chars ":")),
    (.GT, matchLit (chars ">")),
    (.LT, matchLit (chars "<")),
    (.GE, matchLit (chars ">=")),
    (.LE, matchLit (chars "<=")),
    (.EQ, matchLit (chars "==")),
    (.ASSIGN, matchLit (chars "=")),
    (.PLUS, matchLit (chars "+")),
    (.MINUS, matchLit (chars "-")),
    (.STAR, matchLit (chars "*")),
    (.SLASH, matchLit (chars "/")),
    (.PERCENT, matchLit (chars "%")),
    (.DOT, matchLit (chars ".")),
    (.IDENT, matchIdent),
    (.STRING, matchString),
    (.NUMBER, matchNumber),
    (.SLASHPATH, matchSlashPath),
    (.WS, matchWS),
    (.COMMENT, matchComment) ]

/-- Try a matcher table in order at the head of `s`; first match wins,
as in the `for token_type, pattern in self.TOKENS` loop of `tokenize`. -/
def findIn : List (TokKind × (List Char → Option Nat)) → List Char →
    Option (TokKind × Nat)
  | [], _ => none
  | (k, m) :: ts, s =>
    match m s with
    | some n => some (k, n)
    | none => findIn ts s

/-- The token-kind trial at one position of the input. -/
def findTok (s : List Char) : Option (TokKind × Nat) := findIn TOKENS s

/-- Result of `Tokenizer.tokenize`: the token list, or the `SyntaxError`
raised at an unmatchable position (offset and offending character).
`more` is the fuel-exhaustion artifact of the embedding; it is proved
unreachable for the fuel `tokenize` supplies. -/
inductive LexOut where
  | ok (toks : List Token)
  | err (pos : Nat) (ch : Char)
  | more
deriving DecidableEq

/-- The scanning loop of `Tokenizer.tokenize`: at each position try the
patterns in order; append the token unless its kind is `WS`/`COMMENT`;
advance by the match length; fail with position and character when no
pattern matches. -/
def tokenizeAux : Nat → List Char → Nat → LexOut
  | 0, _, _ => .more
  | Nat.succ _, [], _ => .ok []
  | Nat.succ fuel, c :: rest, pos =>
    match findTok (c :: rest) with
    | none => .err pos c
    | some (k, n) =>
      match tokenizeAux fuel ((c :: rest).drop n) (pos + n) with
      | .ok toks =>
        .ok (if k = .WS ∨ k = .COMMENT then toks
             else ⟨k, (c :: rest).take n⟩ :: toks)
      | r => r

/-- `Tokenizer.tokenize` on a whole text (ample fuel: every successful
match consumes at least one character). -/
def tokenize (s : List Char) : LexOut := tokenizeAux (s.length + 1) s 0

/-! ## Python values and the parsed data model -/

/-- Python values flowing through the parser and generated program:
`None`, strings, integers, booleans, and float literals kept opaque as
their source characters (no float arithmetic is modelled; `NUMBER`
tokens are proved unreachable below, so `floatL` never arises from the
pipeline). -/
inductive Py where
  | none
  | str (s : List Char)
  | int (n : Int)
  | bool (b : Bool)
  | floatL (s : List Char)
deriving DecidableEq

/-- Python truthiness of the modelled values. (`floatL` is approximated
as truthy; it is unreachable from the tokenizer.) -/
def pyTruthy : Py → Bool
  | .none => false
  | .str s => !s.isEmpty
  | .int n => n != 0
  | .bool b => b
  | .floatL _ => true

/-- Decimal characters of an integer, as Python `str(int)` renders it. -/
def intChars (n : Int) : List Char := (toString n).data

/-- Python `str()` of a modelled value, as f-string interpolation
applies it. (`floatL` approximated by its literal characters.) -/
def pyStr : Py → List Char
  | .none => chars "None"
  | .str s => s
  | .int n => intChars n
  | .bool b => if b then chars "True" else chars "False"
  | .floatL s => s

/-- Python `repr()` of a string: single quotes unless the string holds
an apostrophe and no double quote; backslashes, the chosen quote and
common control characters escaped. (Exotic non-printables are not
modelled; lexemes in the claims are plain.) -/
def pyReprStr (s : List Char) : List Char :=
  let escCore : Char → List Char := fun c =>
    if c = cBackslash then [cBackslash, cBackslash]
    else if c = cNl then [cBackslash, 'n']
    else if c = Char.ofNat 13 then [cBackslash, 'r']
    else if c = Char.ofNat 9 then [cBackslash, 't']
    else [c]
  if s.contains cApos && !(s.contains cQuote) then
    [cQuote] ++ (s.map escCore).flatten ++ [cQuote]
  else
    [cApos] ++
      (s.map (fun c => if c = cApos then [cBackslash, cApos] else escCore c)).flatten
      ++ [cApos]

/-- Python `repr()` of a modelled value. (`floatL` approximated by its
literal characters; unreachable from the tokenizer.) -/
def pyRepr : Py → List Char
  | .none => chars "None"
  | .str s => pyReprStr s
  | .int n => intChars n
  | .bool b => if b then chars "True" else chars "False"
  | .floatL s => s

/-- ASCII upper-casing of one character. -/
def toUpperA (c : Char) : Char :=
  if isLowerA c then Char.ofNat (c.toNat - 32) else c

/-- Python `str.upper()` (ASCII fragment). -/
def upperStr (s : List Char) : List Char := s.map toUpperA

/-- Python `str.lower()` (ASCII fragment). -/
def lowerStr (s : List Char) : List Char := s.map toLowerA

/-- Configuration values: a scalar `parse_value` result or one nested
block of scalars. -/
inductive CVal where
  | scalar (v : Py)
  | nested (m : List (List Char × Py))
deriving DecidableEq

/-- Python dict assignment `d[k] = v`: update in place, else append. -/
def dictSet {α : Type} : List (List Char × α) → List Char → α →
    List (List Char × α)
  | [], k, v => [(k, v)]
  | (k', v') :: rest, k, v =>
    if k' = k then (k, v) :: rest else (k', v') :: dictSet rest k v

/-- Python dict lookup `d.get(k)` (keys kept unique by `dictSet`). -/
def dictGet {α : Type} : List (List Char × α) → List Char → Option α
  | [], _ => Option.none
  | (k', v') :: rest, k => if k' = k then some v' else dictGet rest k

/-- A parsed `SOURCE`/`TARGET`/`COMPONENT` block: the dict
`{'type': ..., 'config': ...}` with the `alias` key present only when
an `AS` clause was given. -/
structure SourceSpec where
  type : List Char
  aliasName : Option (List Char)
  config : List (List Char × CVal)
deriving DecidableEq

/-- A parsed rule dict. A `MAP` rule fills all six keys; a `LOOP` rule
carries only `source_field`, `target_field` and `transform`, the other
keys reading as Python `None` through `.get` (modelled by `none`).
`default_value` is a `Py` since Python initialises it to `None`. -/
structure Rule where
  source_field : Py
  target_field : Py
  transform : Option (List Char)
  condition : Option (List Char)
  default_value : Py
  data_type : Option (List Char)
deriving DecidableEq

/-- The parsed mapping definition returned by `Parser.parse_mapping`. -/
structure Mapping where
  name : List Char
  sources : List SourceSpec
  target : SourceSpec
  component : Option SourceSpec
  rules : List Rule
deriving DecidableEq

/-- The default source substituted when no `SOURCE` block was parsed:
`{'type': 'CSV', 'alias': 'source1', 'config': {}}`. -/
def defaultSource : SourceSpec := ⟨chars "CSV", some (chars "source1"), []⟩

/-- The default target substituted when no `TARGET` block was parsed:
`{'type': 'CSV', 'config': {}}`. -/
def defaultTarget : SourceSpec := ⟨chars "CSV", Option.none, []⟩

/-! ## The recursive-descent parser

Each Python method becomes a function over the immutable token buffer
and an explicit position. Python `while` loops become recursion. All
functions take fuel: `Parser.parse_rules` (and kin) genuinely diverge
on some token streams, so no termination measure exists. `.more` is
the fuel-exhaustion outcome. -/

/-- Parse errors: the `SyntaxError`s raised by the tokenizer and the
parser, with their message payloads. -/
inductive PErr where
  | lex (pos : Nat) (ch : Char)
  | expected (k : TokKind) (got : Option Token)
  | expectedTypeNone
  | expectedTypeGot (k : TokKind)
  | unexpectedInMapping (got : Option Token)
deriving DecidableEq

/-- Outcome of a parsing step: a value with the cursor after it, a
raised error, or fuel exhaustion. -/
inductive PRes (α : Type) where
  | ok (a : α) (pos : Nat)
  | err (e : PErr)
  | more
deriving DecidableEq

/-- Sequencing of parsing steps (errors and fuel exhaustion abort). -/
def PRes.bind {α β : Type} : PRes α → (α → Nat → PRes β) → PRes β
  | .ok a pos, f => f a pos
  | .err e, _ => .err e
  | .more, _ => .more

/-- `Parser.current_token`. -/
def curTok (toks : List Token) (pos : Nat) : Option Token := toks.get? pos

/-- `Parser.expect`: the current token if it has the wanted kind
(advancing), else the `SyntaxError` naming the expected kind and the
token actually found. -/
def expectT (toks : List Token) (pos : Nat) (k : TokKind) : PRes Token :=
  match curTok toks pos with
  | some t => if t.kind = k then .ok t (pos + 1) else .err (.expected k (some t))
  | Option.none => .err (.expected k Option.none)

/-- `Parser.match`: consume the current token iff it has the kind. -/
def matchT (toks : List Token) (pos : Nat) (k : TokKind) :
    Option Token × Nat :=
  match curTok toks pos with
  | some t => if t.kind = k then (some t, pos + 1) else (Option.none, pos)
  | Option.none => (Option.none, pos)

/-- The loop of `Parser.skip_whitespace`, given structural fuel so the
kernel can evaluate it (each iteration advances, so `toks.length + 1`
steps always suffice; the fuel-out branch is unreachable from
`skipWS`). -/
def skipWSAux : Nat → List Token → Nat → Nat
  | 0, _, pos => pos
  | fuel + 1, toks, pos =>
    match curTok toks pos with
    | some t =>
      if t.kind = .WS ∨ t.kind = .COMMENT then skipWSAux fuel toks (pos + 1) else pos
    | Option.none => pos

/-- `Parser.skip_whitespace` (tokens of kind `WS`/`COMMENT` never reach
the parser from `tokenize`, but the method is embedded faithfully). -/
def skipWS (toks : List Token) (pos : Nat) : Nat :=
  skipWSAux (toks.length + 1) toks pos

/-- Python `s[1:-1]` (string dequoting). -/
def dequote (s : List Char) : List Char := (s.drop 1).dropLast

/-- Digits to a natural number, as Python `int()` reads them. -/
def digitsToNat (l : List Char) : Nat :=
  l.foldl (fun a c => a * 10 + (c.toNat - 48)) 0

/-- Python `int()` on a numeric lexeme (optional leading minus). -/
def strToInt (s : List Char) : Int :=
  match s with
  | '-' :: r => -(digitsToNat r : Int)
  | _ => digitsToNat s

/-- `Parser.parse_value`: dequoted string for `STRING`, int/float for
`NUMBER` by decimal point, the lexeme for `IDENT`, else Python `None`
without advancing. -/
def parseValue (toks : List Token) (pos : Nat) : Py × Nat :=
  match curTok toks pos with
  | Option.none => (.none, pos)
  | some t =>
    if t.kind = .STRING then (.str (dequote t.lexeme), pos + 1)
    else if t.kind = .NUMBER then
      (if t.lexeme.contains '.' then .floatL t.lexeme
       else .int (strToInt t.lexeme), pos + 1)
    else if t.kind = .IDENT then (.str t.lexeme, pos + 1)
    else (.none, pos)

/-- The collection loop of `Parser.parse_condition`: gather lexemes
until `RBRACE`/`TRANSFORM`/`DEFAULT`/`AS` or end of stream. -/
def condLoop : Nat → List Token → Nat → List (List Char) →
    PRes (List (List Char))
  | 0, _, _, _ => .more
  | fuel + 1, toks, pos, acc =>
    match curTok toks pos with
    | some t =>
      if t.kind = .RBRACE ∨ t.kind = .TRANSFORM ∨ t.kind = .DEFAULT ∨
          t.kind = .AS then .ok acc pos
      else
        condLoop fuel toks (pos + 1)
          (acc ++ if t.kind = .WS ∨ t.kind = .COMMENT then [] else [t.lexeme])
    | Option.none => .ok acc pos

/-- `Parser.parse_condition`: the collected lexemes joined by single
spaces, stored as opaque text. -/
def parseCondition (fuel : Nat) (toks : List Token) (pos : Nat) :
    PRes (List Char) :=
  (condLoop fuel toks pos []).bind fun parts p =>
    .ok (List.intercalate (chars " ") parts) p

/-- The argument loop of `Parser.parse_function_call` (it can diverge:
a token that is neither a value, a comma nor `RPAREN` is never
consumed). -/
def argsLoop : Nat → List Token → Nat → List Py → PRes (List Py)
  | 0, _, _, _ => .more
  | fuel + 1, toks, pos, acc =>
    match curTok toks pos with
    | some t =>
      if t.kind = .RPAREN then .ok acc pos
      else
        let (arg, p1) := parseValue toks pos
        let acc' := if arg = .none then acc else acc ++ [arg]
        let p2 := skipWS toks p1
        let p3 := match curTok toks p2 with
          | some t2 => if t2.kind = .COMMA then p2 + 1 else p2
          | Option.none => p2
        argsLoop fuel toks p3 acc'
    | Option.none => .ok acc pos

/-- `Parser.parse_function_call`: name, parenthesised literal
arguments, rebuilt as the Python-source string
`name(repr(a1), repr(a2), ...)`. -/
def parseFunctionCall (fuel : Nat) (toks : List Token) (pos : Nat) :
    PRes (List Char) :=
  match fuel with
  | 0 => .more
  | fuel + 1 =>
    (expectT toks pos .IDENT).bind fun nameTok p1 =>
    (expectT toks (skipWS toks p1) .LPAREN).bind fun _ p3 =>
    (argsLoop fuel toks p3 []).bind fun args p4 =>
    (expectT toks p4 .RPAREN).bind fun _ p5 =>
    .ok (nameTok.lexeme ++ chars "(" ++
         List.intercalate (chars ", ") (args.map pyRepr) ++ chars ")") p5

/-- The source-field collection loop of `Parser.parse_rule`. -/
def fieldsLoop : Nat → List Token → Nat → List Py → PRes (List Py)
  | 0, _, _, _ => .more
  | fuel + 1, toks, pos, acc =>
    let p := skipWS toks pos
    match curTok toks p with
    | some t =>
      if t.kind = .STRING ∨ t.kind = .IDENT then
        let (v, p1) := parseValue toks p
        let acc' := acc ++ [v]
        match curTok toks p1 with
        | some t2 =>
          if t2.kind = .COMMA then fieldsLoop fuel toks (p1 + 1) acc'
          else .ok acc' p1
        | Option.none => .ok acc' p1
      else .ok acc p
    | Option.none => .ok acc p

/-- The modifier accumulator of `Parser.parse_rule`
(`transform`/`condition`/`default_value`/`data_type`). -/
structure Mods where
  transform : Option (List Char)
  condition : Option (List Char)
  default_value : Py
  data_type : Option (List Char)
deriving DecidableEq

/-- The modifier loop of `Parser.parse_rule`. -/
def modsLoop : Nat → List Token → Nat → Mods → PRes Mods
  | 0, _, _, _ => .more
  | fuel + 1, toks, pos, m =>
    let p := skipWS toks pos
    match curTok toks p with
    | Option.none => .ok m p
    | some t =>
      if t.kind = .TRANSFORM then
        (parseFunctionCall fuel toks (p + 1)).bind fun s p1 =>
          modsLoop fuel toks p1 { m with transform := some s }
      else if t.kind = .IF then
        (parseCondition fuel toks (p + 1)).bind fun s p1 =>
          modsLoop fuel toks p1 { m with condition := some s }
      else if t.kind = .DEFAULT then
        let (v, p1) := parseValue toks (p + 1)
        modsLoop fuel toks p1 { m with default_value := v }
      else if t.kind = .AS then
        (expectT toks (p + 1) .IDENT).bind fun tok p1 =>
          modsLoop fuel toks p1 { m with data_type := some (lowerStr tok.lexeme) }
      else .ok m p

mutual

/-- `Parser.parse_rule`: a `LOOP` rule, a `MAP` rule, or `None` (for
any other token, which is not consumed — the divergence seed). Only the
first collected source field is kept in the rule. -/
def parseRule : Nat → List Token → Nat → PRes (Option Rule)
  | 0, _, _ => .more
  | fuel + 1, toks, pos =>
    match matchT toks pos .LOOP with
    | (some _, p1) => (parseLoopRule fuel toks p1).bind fun r p => .ok (some r) p
    | (Option.none, _) =>
      match matchT toks pos .MAP with
      | (Option.none, _) => .ok Option.none pos
      | (some _, p1) =>
        (fieldsLoop fuel toks p1 []).bind fun fields p2 =>
        (expectT toks (skipWS toks p2) .ARROW).bind fun _ p4 =>
        let p5 := skipWS toks p4
        let tv : Py × Nat :=
          match curTok toks p5 with
          | some t =>
            if t.kind = .STRING ∨ t.kind = .IDENT then parseValue toks p5
            else (.none, p5)
          | Option.none => (.none, p5)
        (modsLoop fuel toks tv.2 ⟨Option.none, Option.none, .none, Option.none⟩).bind
          fun m p7 =>
        .ok (some
          { source_field := match fields with | [] => .str [] | f :: _ => f
            target_field := if pyTruthy tv.1 then tv.1 else .str []
            transform := m.transform
            condition := m.condition
            default_value := m.default_value
            data_type := m.data_type }) p7

/-- `Parser.parse_loop_rule`: collection name, braced body whose rules
are collected and then discarded, and the collapsed marker rule
`{'source_field': coll, 'target_field': 'loop',
'transform': "loop(repr(coll))"}`. -/
def parseLoopRule : Nat → List Token → Nat → PRes Rule
  | 0, _, _ => .more
  | fuel + 1, toks, pos =>
    (expectT toks pos .IDENT).bind fun tok p1 =>
    (expectT toks (skipWS toks p1) .LBRACE).bind fun _ p3 =>
    (loopBodyLoop fuel toks p3).bind fun _ p4 =>
    (expectT toks p4 .RBRACE).bind fun _ p5 =>
    .ok { source_field := .str tok.lexeme
          target_field := .str (chars "loop")
          transform := some (chars "loop(" ++ pyRepr (.str tok.lexeme) ++ chars ")")
          condition := Option.none
          default_value := .none
          data_type := Option.none } p5

/-- The body loop of `Parser.parse_loop_rule` (no whitespace skipping;
diverges like `rulesLoop` when `parse_rule` returns `None`). -/
def loopBodyLoop : Nat → List Token → Nat → PRes (List Rule)
  | 0, _, _ => .more
  | fuel + 1, toks, pos =>
    match curTok toks pos with
    | some t =>
      if t.kind = .RBRACE then .ok [] pos
      else
        (parseRule fuel toks pos).bind fun r p1 =>
        (loopBodyLoop fuel toks p1).bind fun rs p2 =>
        .ok (match r with | some rr => rr :: rs | Option.none => rs) p2
    | Option.none => .ok [] pos

end

/-- The rule-collection loop of `Parser.parse_rules`. When the current
token is neither `LOOP`, `MAP` nor `RBRACE`, `parse_rule` returns
`None` without consuming anything and the loop repeats with unchanged
state: the Python code loops forever there. -/
def rulesLoop : Nat → List Token → Nat → List Rule → PRes (List Rule)
  | 0, _, _, _ => .more
  | fuel + 1, toks, pos, acc =>
    match curTok toks pos with
    | some t =>
      if t.kind = .RBRACE then .ok acc pos
      else
        let p := skipWS toks pos
        (parseRule fuel toks p).bind fun r p1 =>
        rulesLoop fuel toks p1
          (match r with | some rr => acc ++ [rr] | Option.none => acc)
    | Option.none => .ok acc pos

/-- `Parser.parse_rules`: braced rule list. -/
def parseRules (fuel : Nat) (toks : List Token) (pos : Nat) :
    PRes (List Rule) :=
  match fuel with
  | 0 => .more
  | fuel + 1 =>
    (expectT toks pos .LBRACE).bind fun _ p1 =>
    (rulesLoop fuel toks p1 []).bind fun rs p2 =>
    (expectT toks p2 .RBRACE).bind fun _ p3 =>
    .ok rs p3

/-- The nested-block loop of `Parser.parse_source_target`. -/
def nestedLoop : Nat → List Token → Nat → List (List Char × Py) →
    PRes (List (List Char × Py))
  | 0, _, _, _ => .more
  | fuel + 1, toks, pos, acc =>
    match curTok toks pos with
    | some t =>
      if t.kind = .RBRACE then .ok acc pos
      else
        (expectT toks pos .IDENT).bind fun ktok p1 =>
        (expectT toks (skipWS toks p1) .COLON).bind fun _ p3 =>
        let (v, p4) := parseValue toks p3
        let p5 := skipWS toks p4
        let p6 := match curTok toks p5 with
          | some t2 => if t2.kind = .COMMA then p5 + 1 else p5
          | Option.none => p5
        nestedLoop fuel toks p6 (dictSet acc ktok.lexeme v)
    | Option.none => .ok acc pos

/-- The configuration loop of `Parser.parse_source_target`: `key ':'`
then a braced nested block or a scalar value, optional comma. -/
def configLoop : Nat → List Token → Nat → List (List Char × CVal) →
    PRes (List (List Char × CVal))
  | 0, _, _, _ => .more
  | fuel + 1, toks, pos, acc =>
    match curTok toks pos with
    | some t =>
      if t.kind = .RBRACE then .ok acc pos
      else
        (expectT toks pos .IDENT).bind fun ktok p1 =>
        (expectT toks (skipWS toks p1) .COLON).bind fun _ p3 =>
        let p4 := skipWS toks p3
        let entry : PRes (List (List Char × CVal)) :=
          match matchT toks p4 .LBRACE with
          | (some _, p5) =>
            (nestedLoop fuel toks p5 []).bind fun nested p6 =>
            (expectT toks p6 .RBRACE).bind fun _ p7 =>
            .ok (dictSet acc ktok.lexeme (.nested nested)) p7
          | (Option.none, _) =>
            let (v, p5) := parseValue toks p4
            .ok (dictSet acc ktok.lexeme (.scalar v)) p5
        entry.bind fun acc' p8 =>
        let p9 := skipWS toks p8
        let p10 := match curTok toks p9 with
          | some t2 => if t2.kind = .COMMA then p9 + 1 else p9
          | Option.none => p9
        configLoop fuel toks p10 acc'
    | Option.none => .ok acc pos

/-- `Parser.parse_source_target`: a type token (`XML`/`CSV`/`DB`/
`EDI`/`JSON` or a bare identifier, upper-cased), an optional `AS`
alias, and the braced configuration. -/
def parseSourceTarget (fuel : Nat) (toks : List Token) (pos : Nat) :
    PRes SourceSpec :=
  match fuel with
  | 0 => .more
  | fuel + 1 =>
    match curTok toks pos with
    | Option.none => .err .expectedTypeNone
    | some t =>
      if t.kind = .XML ∨ t.kind = .CSV ∨ t.kind = .DB ∨ t.kind = .EDI ∨
          t.kind = .JSON ∨ t.kind = .IDENT then
        let aliasStep : PRes (Option (List Char)) :=
          match matchT toks (skipWS toks (pos + 1)) .AS with
          | (some _, p3) =>
            (expectT toks (skipWS toks p3) .IDENT).bind fun atok p5 =>
              .ok (some atok.lexeme) (skipWS toks p5)
          | (Option.none, p2) => .ok Option.none p2
        aliasStep.bind fun al p6 =>
        (expectT toks p6 .LBRACE).bind fun _ p7 =>
        (configLoop fuel toks p7 []).bind fun cfg p8 =>
        (expectT toks p8 .RBRACE).bind fun _ p9 =>
        .ok { type := upperStr t.lexeme, aliasName := al, config := cfg } p9
      else .err (.expectedTypeGot t.kind)

/-- The accumulator of the `parse_mapping` section loop. -/
structure MapAcc where
  sources : List SourceSpec
  target : Option SourceSpec
  component : Option SourceSpec
  rules : List Rule
deriving DecidableEq

/-- The section loop of `Parser.parse_mapping`: `SOURCE`, `TARGET`,
`COMPONENT` and `RULES` sections in any order until `RBRACE`; any
other token raises `SyntaxError("Unexpected token in mapping: ...")`. -/
def mappingLoop : Nat → List Token → Nat → MapAcc → PRes MapAcc
  | 0, _, _, _ => .more
  | fuel + 1, toks, pos, acc =>
    match curTok toks pos with
    | some t =>
      if t.kind = .RBRACE then .ok acc pos
      else
        let p := skipWS toks pos
        match matchT toks p .SOURCE with
        | (some _, p1) =>
          (parseSourceTarget fuel toks p1).bind fun s p2 =>
            mappingLoop fuel toks p2 { acc with sources := acc.sources ++ [s] }
        | (Option.none, _) =>
        match matchT toks p .TARGET with
        | (some _, p1) =>
          (parseSourceTarget fuel toks p1).bind fun s p2 =>
            mappingLoop fuel toks p2 { acc with target := some s }
        | (Option.none, _) =>
        match matchT toks p .COMPONENT with
        | (some _, p1) =>
          (parseSourceTarget fuel toks p1).bind fun s p2 =>
            mappingLoop fuel toks p2 { acc with component := some s }
        | (Option.none, _) =>
        match matchT toks p .RULES with
        | (some _, p1) =>
          (parseRules fuel toks p1).bind fun rs p2 =>
            mappingLoop fuel toks p2 { acc with rules := rs }
        | (Option.none, _) => .err (.unexpectedInMapping (curTok toks p))
    | Option.none => .ok acc pos

/-- `Parser.parse_mapping`: keyword, name, braced section loop, closing
brace; missing `SOURCE`/`TARGET` sections are substituted by the
default CSV specs. -/
def parseMapping (fuel : Nat) (toks : List Token) (pos : Nat) :
    PRes Mapping :=
  match fuel with
  | 0 => .more
  | fuel + 1 =>
    (expectT toks pos .MAPPING).bind fun _ p1 =>
    (expectT toks p1 .IDENT).bind fun ntok p2 =>
    (expectT toks (skipWS toks p2) .LBRACE).bind fun _ p4 =>
    (mappingLoop fuel toks p4 ⟨[], Option.none, Option.none, []⟩).bind fun acc p5 =>
    (expectT toks p5 .RBRACE).bind fun _ p6 =>
    .ok { name := ntok.lexeme
          sources := if acc.sources.isEmpty then [defaultSource] else acc.sources
          target := acc.target.getD defaultTarget
          component := acc.component
          rules := acc.rules } p6

/-- `Parser.parse`: tokenize, then parse the mapping from position 0. -/
def parseText (s : List Char) (fuel : Nat) : PRes Mapping :=
  match tokenize s with
  | .ok toks => parseMapping fuel toks 0
  | .err p c => .err (.lex p c)
  | .more => .more

/-! ## The code generator

`CodeGenerator._generate_rule_processing` builds the right-hand side of
each field assignment by wrapping a string `value_expr` in successive
f-strings. The wrapping is mirrored by the `PyExpr` syntax tree whose
`render` reproduces the exact generated text; `evalBase` gives the
generated program's evaluation of the fetch and default layers (the
transform and coercion layers are left unevaluated — no claim needs
their runtime values). -/

/-- The right-hand-side expressions `_generate_rule_processing` can
build: a record fetch, the literal `None`, the default-substitution
conditional, a `transform_value` call, and a guarded type coercion. -/
inductive PyExpr where
  | src (f : Py)
  | noneE
  | dflt (base : PyExpr) (d : Py)
  | trans (base : PyExpr) (fn : List Char) (args : List Char)
  | coerce (ty : List Char) (base : PyExpr)
deriving DecidableEq

/-- The generated text of an expression, following the f-strings of
`_generate_rule_processing` (the default and coercion wrappers
interpolate their scrutinee twice). -/
def render : PyExpr → List Char
  | .src f => chars "source_item.get(\"" ++ pyStr f ++ chars "\")"
  | .noneE => chars "None"
  | .dflt b d =>
    render b ++ chars " if " ++ render b ++ chars " is not None else " ++ pyRepr d
  | .trans b fn args =>
    chars "transform_value(" ++ render b ++ chars ", \"" ++ fn ++ chars "\", " ++
      args ++ chars ")"
  | .coerce ty b =>
    ty ++ chars "(" ++ render b ++ chars ") if " ++ render b ++
      chars " is not None else None"

/-- `rule['transform'].split('(')[0]`: the function name. -/
def funcName (t : List Char) : List Char := t.takeWhile (· ≠ '(')

/-- `rule['transform'][len(func_name)+1:-1]`: the argument text. -/
def argsStr (t : List Char) : List Char :=
  (t.drop ((funcName t).length + 1)).dropLast

/-- The generator's `type_map.get(rule['data_type'].lower(),
rule['data_type'])`. -/
def typeMapGet (dt : List Char) : List Char :=
  let l := lowerStr dt
  if l = chars "integer" then chars "int"
  else if l = chars "int" then chars "int"
  else if l = chars "string" then chars "str"
  else if l = chars "str" then chars "str"
  else if l = chars "decimal" then chars "float"
  else if l = chars "float" then chars "float"
  else if l = chars "boolean" then chars "bool"
  else if l = chars "bool" then chars "bool"
  else dt

/-- The fetch at the bottom of every rule expression:
`source_item.get("...")` when `source_field` is truthy, the literal
`None` otherwise. -/
def srcExpr (rule : Rule) : PyExpr :=
  if pyTruthy rule.source_field then .src rule.source_field else .noneE

/-- The `value_expr` built by `_generate_rule_processing`: fetch, then
default substitution when `default_value` is not `None`, then the
transform call when `transform` is truthy, then the type coercion when
`data_type` is truthy — in that wrapping order. -/
def genValueExpr (rule : Rule) : PyExpr :=
  let base := srcExpr rule
  let e1 := if rule.default_value ≠ .none then .dflt base rule.default_value else base
  let e2 := match rule.transform with
    | some t => if t.isEmpty then e1 else .trans e1 (funcName t) (argsStr t)
    | Option.none => e1
  match rule.data_type with
  | some dt => if dt.isEmpty then e2 else .coerce (typeMapGet dt) e2
  | Option.none => e2

/-- `CodeGenerator._generate_rule_processing`: no lines for a falsy
target field; otherwise the assignment line, guarded by the raw
condition text when the condition is truthy. -/
def genRuleProcessing (rule : Rule) (indent : Nat) : List (List Char) :=
  if !pyTruthy rule.target_field then []
  else
    let ve := render (genValueExpr rule)
    let indentStr : List Char := List.replicate indent ' '
    let assign := indentStr ++ chars "output_item[\"" ++ pyStr rule.target_field ++
      chars "\"] = " ++ ve
    match rule.condition with
    | some c =>
      if c.isEmpty then [assign]
      else
        [indentStr ++ chars "if " ++ c ++ chars ":",
         indentStr ++ chars "    output_item[\"" ++ pyStr rule.target_field ++
           chars "\"] = " ++ ve]
    | Option.none => [assign]

/-- A record of the generated program (one unified input item). -/
abbrev Record := List (List Char × Py)

/-- Python `source_item.get(f)`: the stored value, `None` if absent. -/
def recGet (rec : Record) (f : List Char) : Py :=
  match dictGet rec f with
  | some v => v
  | Option.none => .none

/-- Partial semantics of generated expressions, as the generated
program evaluates them: the fetch and the default-substitution
conditional (`X if X is not None else repr(d)` — the literal rebuilds
`d`) are evaluated; transform and coercion layers are not modelled
(`Option.none` = outside the modelled fragment, not a value). -/
def evalBase : PyExpr → Record → Option Py
  | .src f, rec => some (recGet rec (pyStr f))
  | .noneE, _ => some .none
  | .dflt b d, rec =>
    match evalBase b rec with
    | some v => some (if v = .none then d else v)
    | Option.none => Option.none
  | .trans _ _ _, _ => Option.none
  | .coerce _ _, _ => Option.none

/-- The value the generated program fetches for a rule's source field
(`source_item.get("...")`, or the literal `None` for a falsy field). -/
def fetchVal (rule : Rule) (rec : Record) : Py :=
  if pyTruthy rule.source_field then recGet rec (pyStr rule.source_field) else .none

/-! ## The generated main function -/

/-- `str()` of one parsed config dict (nested block), as an f-string
would render it. -/
def pyDictStr (m : List (List Char × Py)) : List Char :=
  [cLBrace] ++
    (List.intercalate (chars ", ")
      (m.map fun kv => pyReprStr kv.1 ++ chars ": " ++ pyRepr kv.2)) ++
  [cRBrace]

/-- `str()` of a configuration value. -/
def cvStr : CVal → List Char
  | .scalar v => pyStr v
  | .nested m => pyDictStr m

/-- `str(config.get(key, default))` with a string default. -/
def cfgStr (cfg : List (List Char × CVal)) (key dflt : List Char) : List Char :=
  match dictGet cfg key with
  | some cv => cvStr cv
  | Option.none => dflt

/-- Python `str.capitalize()`: first character upper-cased, the rest
lower-cased (ASCII fragment). -/
def pyCapitalize (s : List Char) : List Char :=
  match s with
  | [] => []
  | c :: r => toUpperA c :: lowerStr r

/-- The scanning loop of Python `str.replace(pat, rep)` for a
non-empty pattern, left to right, with structural fuel (each step
consumes at least one character, so `s.length + 1` steps suffice). -/
def replaceAllAux (pat rep : List Char) : Nat → List Char → List Char
  | 0, s => s
  | _ + 1, [] => []
  | fuel + 1, c :: rest =>
    if pat ≠ [] ∧ pat.isPrefixOf (c :: rest) then
      rep ++ replaceAllAux pat rep fuel ((c :: rest).drop pat.length)
    else c :: replaceAllAux pat rep fuel rest

/-- Python `str.replace(pat, rep)` (only non-empty patterns are used
by the generator). -/
def replaceAll (pat rep s : List Char) : List Char :=
  replaceAllAux pat rep (s.length + 1) s

/-- The generator's query escaping:
`query.replace(backslash, double backslash).replace(quote,
backslash quote)`. -/
def escapeQ (q : List Char) : List Char :=
  replaceAll [cQuote] [cBackslash, cQuote]
    (replaceAll [cBackslash] [cBackslash, cBackslash] q)

/-- `CodeGenerator._generate_component_db_setup`. -/
def genComponentDbSetup : List (List Char) :=
  [ chars "",
    chars "    # --- Component Preparation (In-Memory DB) ---",
    chars "    import sqlite3",
    chars "    conn = sqlite3.connect(\":memory:\")",
    chars "    cursor = conn.cursor()" ]

/-- The read-phase lines `_generate_main_function` emits for one
source (keyed by the source's upper-cased type). -/
def readLinesFor (src : SourceSpec) : List (List Char) :=
  let al := src.aliasName.getD (chars "source1")
  let st := upperStr src.type
  let cfg := src.config
  [ chars "    input_for_" ++ al ++ chars " = inputs.get(\"" ++ al ++ chars "\")",
    chars "    if not input_for_" ++ al ++ chars ":",
    chars "        pass # handle missing input gracefully if needed",
    chars "    else:" ] ++
  (if st = chars "CSV" then
    [chars "        sources_data[\"" ++ al ++ chars "\"] = read_source(input_for_" ++
      al ++ chars ", has_header=" ++
      pyCapitalize (cfgStr cfg (chars "has_header") (chars "true")) ++ chars ")"]
  else if st = chars "DB" then
    [chars "        sources_data[\"" ++ al ++ chars "\"] = read_db_source(\"" ++
      cfgStr cfg (chars "type") (chars "sqlite") ++ chars "\", \"" ++
      cfgStr cfg (chars "connection_string") (chars "") ++ chars "\", \"\"\"" ++
      escapeQ (cfgStr cfg (chars "query") (chars "SELECT * FROM table")) ++
      chars "\"\"\")"]
  else if st = chars "EDI" then
    [chars "        sources_data[\"" ++ al ++ chars "\"] = read_edi_source(input_for_" ++
      al ++ chars ", delimiter=\"" ++ cfgStr cfg (chars "version") (chars "X12") ++
      chars "\")"]
  else if st = chars "JSON" then
    [chars "        with open(input_for_" ++ al ++
      chars ", \"r\") as f: sources_data[\"" ++ al ++ chars "\"] = json.load(f)"]
  else
    [chars "        sources_data[\"" ++ al ++ chars "\"] = read_source(input_for_" ++
      al ++ chars ", root_element=\"" ++
      cfgStr cfg (chars "root_element") (chars "Item") ++ chars "\")"])

/-- The ephemeral-table block `_generate_main_function` emits for one
source alias when a component is present: create one table named by
the alias with every column typed `TEXT`, and insert that source's
records into it. -/
def aliasTableBlock (src : SourceSpec) : List (List Char) :=
  let al := src.aliasName.getD (chars "source1")
  [ chars "    if \"" ++ al ++ chars "\" in sources_data and sources_data[\"" ++
      al ++ chars "\"]:",
    chars "        # Dynamically create table and insert data for alias " ++ al,
    chars "        first_item = sources_data[\"" ++ al ++ chars "\"][0]",
    chars "        columns = list(first_item.keys())",
    chars "        col_defs = \", \".join([f\"\x7bc\x7d TEXT\" for c in columns])",
    chars "        cursor.execute(f\"CREATE TABLE " ++ al ++
      chars " (\x7bcol_defs\x7d)\")",
    chars "        ",
    chars "        placeholders = \", \".join([\"?\" for _ in columns])",
    chars "        insert_sql = f\"INSERT INTO " ++ al ++
      chars " (\x7b\", \".join(columns)\x7d) VALUES (\x7bplaceholders\x7d)\"",
    chars "        for item in sources_data[\"" ++ al ++ chars "\"]:",
    chars "            cursor.execute(insert_sql, [str(item.get(c)) if item.get(c) is not None else None for c in columns])",
    chars "        conn.commit()" ]

/-- The component-query block: execute the component's query string
against the ephemeral store and take its result set as the
`source_items` record stream. -/
def componentQueryBlock (componentCfg : List (List Char × CVal)) : List (List Char) :=
  [ chars "    ",
    chars "    # Execute Component query to produce final source items",
    chars "    cursor.execute(\"\"\"" ++
      escapeQ (cfgStr componentCfg (chars "query") (chars "SELECT * FROM source1")) ++
      chars "\"\"\")",
    chars "    columns = [desc[0] for desc in cursor.description]",
    chars "    source_items = [dict(zip(columns, row)) for row in cursor.fetchall()]",
    chars "    conn.close()" ]

/-- The write-phase call emitted for the target type. -/
def writeTargetCall (targetType : List Char) (tcfg : List (List Char × CVal)) :
    List (List Char) :=
  if targetType = chars "CSV" then
    [chars "    write_target(output_items, output_path)"]
  else if targetType = chars "DB" then
    [chars "    write_db_target(output_items, \"" ++
      cfgStr tcfg (chars "type") (chars "sqlite") ++ chars "\", \"" ++
      cfgStr tcfg (chars "connection_string") (chars "") ++ chars "\", \"" ++
      cfgStr tcfg (chars "table") (chars "output") ++ chars "\")"]
  else if targetType = chars "EDI" then
    [chars "    write_target(output_items, output_path, delimiter=\"" ++
      cfgStr tcfg (chars "version") (chars "X12") ++ chars "\")"]
  else if targetType = chars "JSON" then
    [chars "    write_target(output_items, output_path)"]
  else
    [chars "    write_target(output_items, output_path, root_element=\"" ++
      cfgStr tcfg (chars "root_element") (chars "Root") ++ chars "\")"]

/-- The fixed command-line entry-point lines. -/
def entryLines : List (List Char) :=
  [ chars "",
    chars "if __name__ == \"__main__\":",
    chars "    import sys",
    chars "    # We map all sys.argv pairs (except last as output) intoinputs",
    chars "    if len(sys.argv) >= 3:",
    chars "        output_path = sys.argv[-1]",
    chars "        inputs = \x7b\x7d",
    chars "        if len(sys.argv) == 3:",
    chars "            inputs[\"source1\"] = sys.argv[1]",
    chars "        else:",
    chars "            # Format: alias1 path1 alias2 path2 output",
    chars "            for i in range(1, len(sys.argv)-1, 2):",
    chars "                inputs[sys.argv[i]] = sys.argv[i+1]",
    chars "        result = execute_mapping(inputs, output_path)",
    chars "        print(f\"Mapping complete: \x7blen(result)\x7d items\")",
    chars "    else:",
    chars "        print(\"Usage: python generated.py [alias1 input1 ...] <output>\")" ]

/-- Failure of the generator itself. `attrNoneGet` models the
`AttributeError` of `self.mapping.get('component', {}).get('config',
{})`: the parser always stores the `component` key (as `None` when no
`COMPONENT` block was given), `dict.get` then returns that stored
`None`, and `None.get(...)` raises. The no-component fallback branch
later in `_generate_main_function` is therefore unreachable through
the compile pipeline. -/
inductive GenErr where
  | attrNoneGet
deriving DecidableEq

/-- `CodeGenerator._generate_main_function`: read phase per source,
component preparation (ephemeral store, one table per alias, the
component query producing `source_items`), the per-record rule
application, the write call and the entry point. With `component`
parsed as `None` the function raises before emitting anything. -/
def genMainFunction (m : Mapping) (targetType : List Char) :
    Except GenErr (List (List Char)) :=
  match m.component with
  | Option.none => .error .attrNoneGet
  | some comp =>
    .ok (
      [ chars "",
        chars "# Main Mapping Function",
        chars "def execute_mapping(inputs: dict, output_path: str) -> List[Dict]:",
        chars "    \"\"\"Execute the mapping and return transformed data.",
        chars "       inputs is a dict of \x7b alias: file_path \x7d",
        chars "    \"\"\"",
        chars "    sources_data = \x7b\x7d" ]
      ++ (m.sources.map readLinesFor).flatten
      ++ genComponentDbSetup
      ++ (m.sources.map aliasTableBlock).flatten
      ++ componentQueryBlock comp.config
      ++ [ chars "",
           chars "    # Transform items",
           chars "    output_items = []",
           chars "    for source_item in source_items:",
           chars "        output_item = \x7b\x7d" ]
      ++ (m.rules.map (genRuleProcessing · 8)).flatten
      ++ [ chars "        output_items.append(output_item)",
           chars "" ]
      ++ writeTargetCall targetType m.target.config
      ++ [ chars "",
           chars "    return output_items" ]
      ++ entryLines)

/-- The generator's call `self._generate_main_function(target_type)`
with `target_type = self.mapping['target']['type'].upper()`. -/
def genMain (m : Mapping) : Except GenErr (List (List Char)) :=
  genMainFunction m (upperStr m.target.type)

/-! ## The historical variant generator (`src/parser.py`) -/

/-- `str()` of the optional transform attribute. -/
def strOfOptTransform : Option (List Char) → List Char
  | some t => t
  | Option.none => chars "None"

/-- Python's contiguous-substring test `pat in s`. -/
def isSubstr (pat : List Char) : List Char → Bool
  | [] => pat.isEmpty
  | c :: rest => pat.isPrefixOf (c :: rest) || isSubstr pat rest

/-- `CodeGenerator._translate_condition` of the `parser.py` variant. -/
def translateCondition (c : List Char) : List Char :=
  replaceAll (chars "NOT") (chars "not")
    (replaceAll (chars "OR") (chars "or")
      (replaceAll (chars "AND") (chars "and") c))

/-- `CodeGenerator._generate_rule_code` of the historical `parser.py`
variant: a rule whose transform text contains `loop(` emits only a
comment marker; otherwise a comment, an optional condition guard, the
transform/coercion chain, and the assignment — with the default
substituted under a falsiness test of the source value (the variant's
divergent default semantics). -/
def genRuleCodeVariant (rule : Rule) : List (List Char) :=
  if !pyTruthy rule.target_field then []
  else if isSubstr (chars "loop(") (strOfOptTransform rule.transform) then
    [chars "    # Loop through " ++ pyStr rule.source_field]
  else
    let sourceVar := chars "source_item.get(\"" ++ pyStr rule.source_field ++ chars "\")"
    let lcond : List (List Char) := match rule.condition with
      | some c =>
        if c.isEmpty then [] else [chars "    if " ++ translateCondition c ++ chars ":"]
      | Option.none => []
    let ve1 := match rule.transform with
      | some t =>
        if t.isEmpty then sourceVar
        else chars "transform_value(" ++ sourceVar ++ chars ", \"" ++ funcName t ++
          chars "\", " ++ argsStr t ++ chars ")"
      | Option.none => sourceVar
    let ve2 := match rule.data_type with
      | some dt => if dt.isEmpty then ve1 else dt ++ chars "(" ++ ve1 ++ chars ")"
      | Option.none => ve1
    let lassign : List Char :=
      if rule.default_value ≠ .none then
        chars "    target_item[\"" ++ pyStr rule.target_field ++ chars "\"] = " ++
          ve2 ++ chars " if " ++ sourceVar ++ chars " else \"" ++
          pyStr rule.default_value ++ chars "\""
      else
        chars "    target_item[\"" ++ pyStr rule.target_field ++ chars "\"] = " ++ ve2
    [chars "    # Rule: " ++ pyStr rule.source_field ++ chars " -> " ++
      pyStr rule.target_field] ++ lcond ++ [lassign] ++ [chars ""]

/-! ## Helper lemmas -/

theorem PRes.bind_eq_ok {α β : Type} {x : PRes α} {f : α → Nat → PRes β}
    {b : β} {p : Nat} (h : x.bind f = .ok b p) :
    ∃ a q, x = .ok a q ∧ f a q = .ok b p := by
  cases x with
  | ok a q => exact ⟨a, q, rfl, h⟩
  | err e => simp [PRes.bind] at h
  | more => simp [PRes.bind] at h

theorem skipWS_of_kind {toks : List Token} {pos : Nat} {t : Token}
    (h : curTok toks pos = some t)
    (h1 : t.kind ≠ .WS) (h2 : t.kind ≠ .COMMENT) : skipWS toks pos = pos := by
  rw [skipWS, skipWSAux, h]
  simp [h1, h2]

theorem skipWS_of_none {toks : List Token} {pos : Nat}
    (h : curTok toks pos = Option.none) : skipWS toks pos = pos := by
  rw [skipWS, skipWSAux, h]

theorem digit_eq {d : Char} (h : isDigitA d = true) :
    d = '0' ∨ d = '1' ∨ d = '2' ∨ d = '3' ∨ d = '4' ∨
    d = '5' ∨ d = '6' ∨ d = '7' ∨ d = '8' ∨ d = '9' := by
  simpa [isDigitA, or_assoc] using h

theorem matchKw_pos {kw : List Char} {wb : Bool} {s : List Char} {n : Nat}
    (hkw : kw ≠ []) (h : matchKw kw wb s = some n) : 1 ≤ n := by
  have hlen : 1 ≤ kw.length := by
    cases kw with
    | nil => exact absurd rfl hkw
    | cons a l => simp
  unfold matchKw at h
  split at h
  · split at h
    · split at h
      · cases h; exact hlen
      · split at h
        · cases h
        · cases h; exact hlen
    · cases h; exact hlen
  · cases h

theorem matchLit_pos {lit s : List Char} {n : Nat}
    (hlit : lit ≠ []) (h : matchLit lit s = some n) : 1 ≤ n := by
  have hlen : 1 ≤ lit.length := by
    cases lit with
    | nil => exact absurd rfl hlit
    | cons a l => simp
  unfold matchLit at h
  split at h
  · cases h; exact hlen
  · cases h

theorem matchIdent_pos {s : List Char} {n : Nat}
    (h : matchIdent s = some n) : 1 ≤ n := by
  unfold matchIdent at h
  split at h
  · cases h
  · rename_i c rest
    split at h
    · cases h; omega
    · split at h
      · rename_i hdig
        have : (c :: rest).takeWhile isDigitA = c :: rest.takeWhile isDigitA := by
          simp [List.takeWhile_cons, hdig]
        cases h
        rw [this]
        simp
        omega
      · cases h

theorem matchString_pos {s : List Char} {n : Nat}
    (h : matchString s = some n) : 1 ≤ n := by
  unfold matchString at h
  split at h
  · split at h
    · rcases Option.map_eq_some'.mp h with ⟨i, _, hi⟩
      omega
    · split at h
      · rcases Option.map_eq_some'.mp h with ⟨i, _, hi⟩
        omega
      · cases h
  · cases h

theorem matchDigits_pos {s1 : List Char} {n : Nat}
    (h : matchDigits s1 = some n) : 1 ≤ n := by
  unfold matchDigits at h
  split at h
  · cases h
  · rename_i hne
    split at h
    · split at h
      · cases h; omega
      · cases h; omega
    · cases h; omega

theorem matchNumber_pos {s : List Char} {n : Nat}
    (h : matchNumber s = some n) : 1 ≤ n := by
  unfold matchNumber at h
  split at h
  · rcases Option.map_eq_some'.mp h with ⟨i, _, hi⟩
    omega
  · exact matchDigits_pos h

theorem matchSlashPath_pos {s : List Char} {n : Nat}
    (h : matchSlashPath s = some n) : 1 ≤ n := by
  simp only [matchSlashPath] at h
  split at h
  · cases h
  · split at h
    · cases h; omega
    · cases h

theorem matchWS_pos {s : List Char} {n : Nat}
    (h : matchWS s = some n) : 1 ≤ n := by
  simp only [matchWS] at h
  split at h
  · cases h
  · cases h; omega

theorem matchComment_pos {s : List Char} {n : Nat}
    (h : matchComment s = some n) : 1 ≤ n := by
  unfold matchComment at h
  split at h
  · cases h; omega
  · cases h

theorem findIn_eq_some_mem {ts : List (TokKind × (List Char → Option Nat))}
    {s : List Char} {k : TokKind} {n : Nat}
    (h : findIn ts s = some (k, n)) : ∃ m, (k, m) ∈ ts ∧ m s = some n := by
  induction ts with
  | nil => simp [findIn] at h
  | cons km rest ih =>
    obtain ⟨k', m'⟩ := km
    rw [findIn] at h
    cases hm : m' s with
    | some n' =>
      rw [hm] at h
      cases h
      exact ⟨m', List.mem_cons_self _ _, hm⟩
    | none =>
      rw [hm] at h
      rcases ih h with ⟨m, hmem, hms⟩
      exact ⟨m, List.mem_cons_of_mem _ hmem, hms⟩

theorem findTok_pos {s : List Char} {k : TokKind} {n : Nat}
    (h : findTok s = some (k, n)) : 1 ≤ n := by
  rcases findIn_eq_some_mem h with ⟨m, hmem, hms⟩
  simp only [TOKENS] at hmem
  fin_cases hmem <;>
    first
      | exact matchKw_pos (by decide) hms
      | exact matchLit_pos (by decide) hms
      | exact matchIdent_pos hms
      | exact matchString_pos hms
      | exact matchNumber_pos hms
      | exact matchSlashPath_pos hms
      | exact matchWS_pos hms
      | exact matchComment_pos hms

theorem tokenizeAux_ne_more {fuel : Nat} : ∀ {s : List Char} {pos : Nat},
    s.length < fuel → tokenizeAux fuel s pos ≠ .more := by
  induction fuel with
  | zero => intro s pos h; omega
  | succ n ih =>
    intro s pos h
    cases s with
    | nil => simp [tokenizeAux]
    | cons c rest =>
      rw [tokenizeAux]
      cases hf : findTok (c :: rest) with
      | none => simp
      | some kn =>
        obtain ⟨k, m⟩ := kn
        have hm := findTok_pos hf
        have hlen : ((c :: rest).drop m).length < n := by
          simp only [List.length_drop, List.length_cons] at *
          omega
        cases hr : tokenizeAux n ((c :: rest).drop m) (pos + m) with
        | ok toks => simp [hr]
        | err p ch => simp [hr]
        | more => exact absurd hr (ih hlen)

theorem tokenize_ne_more (s : List Char) : tokenize s ≠ .more :=
  tokenizeAux_ne_more (by omega)

/-- C5: the hierarchical input field name `Item/id` lexes as one
single `IDENT` token whose lexeme is the whole path; it is never split
into the three tokens `Item`, `/`, `id`. -/
theorem c5_path_single_token :
    tokenize (chars "Item/id") = .ok [⟨.IDENT, chars "Item/id"⟩] := by rfl

theorem findTok_digit (d : Char) (rest : List Char) (hd : isDigitA d = true) :
    findTok (d :: rest) = some (.IDENT,
      ((d :: rest).takeWhile isDigitA).length +
      (((d :: rest).drop ((d :: rest).takeWhile isDigitA).length).takeWhile
        isIdentCont).length) := by
  rcases digit_eq hd with rfl|rfl|rfl|rfl|rfl|rfl|rfl|rfl|rfl|rfl <;> rfl

theorem findTok_minusDigit (d : Char) (rest : List Char) (hd : isDigitA d = true) :
    findTok ('-' :: d :: rest) = some (.MINUS, 1) := by
  rcases digit_eq hd with rfl|rfl|rfl|rfl|rfl|rfl|rfl|rfl|rfl|rfl <;> rfl

theorem matchDigits_head {s1 : List Char} {n : Nat}
    (h : matchDigits s1 = some n) :
    ∃ d rest, s1 = d :: rest ∧ isDigitA d = true := by
  unfold matchDigits at h
  split at h
  · cases h
  · rename_i hne
    cases s1 with
    | nil => simp at hne
    | cons d rest =>
      refine ⟨d, rest, rfl, ?_⟩
      by_cases hd : isDigitA d = true
      · exact hd
      · exfalso
        apply hne
        rw [List.takeWhile_cons]
        simp [Bool.not_eq_true] at hd
        simp [hd]

theorem matchNumber_shape {s : List Char} {n : Nat}
    (h : matchNumber s = some n) :
    (∃ d rest, s = d :: rest ∧ isDigitA d = true) ∨
    (∃ d rest, s = '-' :: d :: rest ∧ isDigitA d = true) := by
  unfold matchNumber at h
  split at h
  · rename_i r
    rcases Option.map_eq_some'.mp h with ⟨i, hi, _⟩
    rcases matchDigits_head hi with ⟨d, rest', rfl, hdd⟩
    exact Or.inr ⟨d, rest', rfl, hdd⟩
  · rcases matchDigits_head h with ⟨d, rest', rfl, hdd⟩
    exact Or.inl ⟨d, rest', rfl, hdd⟩

theorem findTok_no_number (s : List Char) (n : Nat) :
    findTok s ≠ some (.NUMBER, n) := by
  intro h
  rcases findIn_eq_some_mem h with ⟨m, hmem, hms⟩
  have hm : matchNumber s = some n := by
    simp only [TOKENS, List.mem_cons, List.not_mem_nil, or_false,
      Prod.mk.injEq, reduceCtorEq, false_and, false_or] at hmem
    rw [hmem.2] at hms
    exact hms
  rcases matchNumber_shape hm with ⟨d, rest, rfl, hd⟩ | ⟨d, rest, rfl, hd⟩
  · rw [findTok_digit d rest hd] at h
    simp at h
  · rw [findTok_minusDigit d rest hd] at h
    simp at h

/-- The relational specification of the scanning loop: the input is
covered, position by position, by first-match token trials, every
match's lexeme is recorded in order, and `WS`/`COMMENT` matches are
discarded. -/
inductive LexChain : List Char → List Token → Prop where
  | nil : LexChain [] []
  | skip {s : List Char} {k : TokKind} {n : Nat} {toks : List Token} :
      findTok s = some (k, n) → (k = .WS ∨ k = .COMMENT) →
      LexChain (s.drop n) toks → LexChain s toks
  | tok {s : List Char} {k : TokKind} {n : Nat} {toks : List Token} :
      findTok s = some (k, n) → ¬(k = .WS ∨ k = .COMMENT) →
      LexChain (s.drop n) toks → LexChain s (⟨k, s.take n⟩ :: toks)

theorem tokenizeAux_ok_inv : ∀ {fuel : Nat} {s : List Char} {pos : Nat}
    {toks : List Token}, tokenizeAux fuel s pos = .ok toks →
    (∀ t ∈ toks, t.kind ≠ .WS ∧ t.kind ≠ .COMMENT ∧ t.kind ≠ .NUMBER) ∧
    LexChain s toks := by
  intro fuel
  induction fuel with
  | zero => intro s pos toks h; cases h
  | succ n ih =>
    intro s pos toks h
    cases s with
    | nil =>
      cases h
      exact ⟨by simp, LexChain.nil⟩
    | cons c rest =>
      rw [tokenizeAux] at h
      cases hf : findTok (c :: rest) with
      | none => rw [hf] at h; cases h
      | some kn =>
        obtain ⟨k, m⟩ := kn
        rw [hf] at h
        dsimp only at h
        cases hr : tokenizeAux n ((c :: rest).drop m) (pos + m) with
        | ok toks' =>
          rw [hr] at h
          dsimp only at h
          rcases ih hr with ⟨hnk, hchain⟩
          by_cases hwc : k = .WS ∨ k = .COMMENT
          · rw [if_pos hwc] at h
            cases h
            exact ⟨hnk, LexChain.skip hf hwc hchain⟩
          · rw [if_neg hwc] at h
            cases h
            refine ⟨?_, LexChain.tok hf hwc hchain⟩
            intro t ht
            rcases List.mem_cons.mp ht with rfl | ht'
            · refine ⟨fun hk => hwc (Or.inl hk), fun hk => hwc (Or.inr hk), ?_⟩
              intro hk
              have hk' : k = TokKind.NUMBER := hk
              exact findTok_no_number _ m (hk' ▸ hf)
            · exact hnk t ht'
        | err p ch => rw [hr] at h; cases h
        | more => rw [hr] at h; cases h

theorem tokenizeAux_err_inv : ∀ {fuel : Nat} {s : List Char} {pos p : Nat}
    {c : Char}, tokenizeAux fuel s pos = .err p c →
    pos ≤ p ∧ s.get? (p - pos) = some c ∧ findTok (s.drop (p - pos)) = none := by
  intro fuel
  induction fuel with
  | zero => intro s pos p c h; cases h
  | succ n ih =>
    intro s pos p c h
    cases s with
    | nil => cases h
    | cons c0 rest =>
      rw [tokenizeAux] at h
      cases hf : findTok (c0 :: rest) with
      | none =>
        rw [hf] at h
        cases h
        refine ⟨Nat.le_refl _, ?_, ?_⟩
        · simp
        · simpa using hf
      | some kn =>
        obtain ⟨k, m⟩ := kn
        rw [hf] at h
        dsimp only at h
        cases hr : tokenizeAux n ((c0 :: rest).drop m) (pos + m) with
        | ok toks' => rw [hr] at h; cases h
        | err p' ch =>
          rw [hr] at h
          dsimp only at h
          cases h
          rcases ih hr with ⟨hle, hget, hfind⟩
          have hm := findTok_pos hf
          refine ⟨by omega, ?_, ?_⟩
          · rw [List.get?_drop] at hget
            have : m + (p - (pos + m)) = p - pos := by omega
            rwa [this] at hget
          · rw [List.drop_drop] at hfind
            have heq2 : m + (p - (pos + m)) = p - pos := by omega
            rwa [heq2] at hfind
        | more => rw [hr] at h; cases h

theorem tokenizeAux_digits : ∀ {fuel : Nat} {ds : List Char} {pos : Nat},
    ds ≠ [] → (∀ c ∈ ds, isDigitA c = true) → ds.length < fuel →
    tokenizeAux fuel ds pos = .ok [⟨.IDENT, ds⟩] := by
  intro fuel ds pos hne hall hfuel
  cases fuel with
  | zero => omega
  | succ n =>
    cases ds with
    | nil => exact absurd rfl hne
    | cons d rest =>
      have hd := hall d (List.mem_cons_self _ _)
      have htw : (d :: rest).takeWhile isDigitA = d :: rest :=
        List.takeWhile_eq_self_iff.mpr hall
      rw [tokenizeAux, findTok_digit d rest hd, htw]
      simp only [List.drop_length, List.takeWhile_nil, List.length_nil,
        Nat.add_zero, List.take_length]
      cases n with
      | zero => simp at hfuel
      | succ j =>
        rw [tokenizeAux]
        simp

/-- C7: for every input text, lexing is all-or-nothing: the scan never
exhausts its fuel; if no token kind matches at the reached position,
the failure carries exactly that offset and the offending character
(and no partial stream is returned — the error is the whole result);
if every position matches, the result is the full ordered token chain
of first matches with `WS` and `COMMENT` matches discarded. -/
theorem c7_tokenize_contract (s : List Char) :
    tokenize s ≠ .more
    ∧ (∀ p c, tokenize s = .err p c →
        s.get? p = some c ∧ findTok (s.drop p) = Option.none)
    ∧ (∀ toks, tokenize s = .ok toks →
        (∀ t ∈ toks, t.kind ≠ .WS ∧ t.kind ≠ .COMMENT) ∧ LexChain s toks) := by
  refine ⟨tokenize_ne_more s, ?_, ?_⟩
  · intro p c h
    rcases tokenizeAux_err_inv h with ⟨_, hget, hfind⟩
    constructor
    · simpa using hget
    · simpa using hfind
  · intro toks h
    rcases tokenizeAux_ok_inv h with ⟨hk, hchain⟩
    exact ⟨fun t ht => ⟨(hk t ht).1, (hk t ht).2.1⟩, hchain⟩

theorem c7_tokenize_contract_witness :
    (chars "@").get? 0 = some '@' ∧ findTok ((chars "@").drop 0) = Option.none :=
  (c7_tokenize_contract (chars "@")).2.1 0 '@' (by rfl)

/-- C3 counterexample: the numeric literal `42` does not lex as a
`NUMBER` token — the `IDENT` pattern, tried first, absorbs any digit
run — and the parser's value reader hence returns the lexeme as a
string, not an integer. -/
theorem c3_counterexample :
    tokenize (chars "42") = .ok [⟨.IDENT, chars "42"⟩]
    ∧ (∀ t ∈ [(⟨.IDENT, chars "42"⟩ : Token)], t.kind ≠ .NUMBER)
    ∧ parseValue [⟨.IDENT, chars "42"⟩] 0 = (Py.str (chars "42"), 1) :=
  ⟨rfl, by decide, rfl⟩

/-- C3 (amended): the tokenizer never emits a `NUMBER` token on any
input (the `IDENT` pattern claims every digit-headed position and the
`MINUS` pattern every minus-headed one, both tried earlier). A digit
literal lexes as one `IDENT` token whose lexeme is the whole literal
and the value reader returns it as a string; with a leading minus the
minus becomes a separate `MINUS` token. The value reader's
integer/float branches exist only for `NUMBER` tokens and are
unreachable from the tokenizer. -/
theorem c3_number_tokens_unreachable :
    (∀ s toks, tokenize s = .ok toks → ∀ t ∈ toks, t.kind ≠ .NUMBER)
    ∧ (∀ ds : List Char, ds ≠ [] → (∀ c ∈ ds, isDigitA c = true) →
        tokenize ds = .ok [⟨.IDENT, ds⟩]
        ∧ tokenize ('-' :: ds) = .ok [⟨.MINUS, chars "-"⟩, ⟨.IDENT, ds⟩]
        ∧ parseValue [⟨.IDENT, ds⟩] 0 = (Py.str ds, 1)) := by
  constructor
  · intro s toks h t ht
    exact ((tokenizeAux_ok_inv h).1 t ht).2.2
  · intro ds hne hall
    refine ⟨tokenizeAux_digits hne hall (by omega), ?_, ?_⟩
    · cases ds with
      | nil => exact absurd rfl hne
      | cons d rest =>
        have hd := hall d (List.mem_cons_self _ _)
        show tokenizeAux (('-' :: d :: rest).length + 1) ('-' :: d :: rest) 0 = _
        rw [tokenizeAux, findTok_minusDigit d rest hd]
        have hin : tokenizeAux (('-' :: d :: rest).length)
            (List.drop 1 ('-' :: d :: rest)) (0 + 1)
            = LexOut.ok [⟨.IDENT, d :: rest⟩] := by
          have h1 : ('-' :: d :: rest).length = (d :: rest).length + 1 := rfl
          have h2 : List.drop 1 ('-' :: d :: rest) = d :: rest := rfl
          rw [h1, h2]
          exact tokenizeAux_digits (List.cons_ne_nil d rest) hall (by omega)
        dsimp only
        rw [hin]
        rfl
    · rfl

theorem c3_number_tokens_unreachable_witness :
    tokenize (chars "7") = .ok [⟨.IDENT, chars "7"⟩]
    ∧ tokenize ('-' :: chars "7") = .ok [⟨.MINUS, chars "-"⟩, ⟨.IDENT, chars "7"⟩]
    ∧ parseValue [⟨.IDENT, chars "7"⟩] 0 = (Py.str (chars "7"), 1) :=
  c3_number_tokens_unreachable.2 (chars "7") (by decide) (by decide)

/-! ## C2: divergence of the parser on an unexpected token in RULES -/

/-- The DML text `MAPPING m { RULES { , } }` (a comma where a rule is
expected). -/
def c2text : List Char := chars "MAPPING m \x7b RULES \x7b , \x7d \x7d"

/-- Its token stream. -/
def c2toks : List Token :=
  [⟨.MAPPING, chars "MAPPING"⟩, ⟨.IDENT, chars "m"⟩, ⟨.LBRACE, [cLBrace]⟩,
   ⟨.RULES, chars "RULES"⟩, ⟨.LBRACE, [cLBrace]⟩, ⟨.COMMA, chars ","⟩,
   ⟨.RBRACE, [cRBrace]⟩, ⟨.RBRACE, [cRBrace]⟩]

theorem c2text_tokens : tokenize c2text = .ok c2toks := rfl

theorem rulesLoop_c2_stuck : ∀ (fuel : Nat) (acc : List Rule),
    rulesLoop fuel c2toks 5 acc = .more := by
  intro fuel
  induction fuel with
  | zero => intro acc; rfl
  | succ n ih =>
    intro acc
    cases n with
    | zero => rfl
    | succ m =>
      have h1 : parseRule (m + 1) c2toks 5 = .ok Option.none 5 := rfl
      have h2 : rulesLoop (m + 1 + 1) c2toks 5 acc
          = (parseRule (m + 1) c2toks 5).bind fun r p1 =>
              rulesLoop (m + 1) c2toks p1
                (match r with | some rr => acc ++ [rr] | Option.none => acc) := rfl
      rw [h2, h1]
      exact ih acc

/-- C2: the parser does not satisfy the total-termination contract —
on the token stream of `MAPPING m { RULES { , } }` (whose RULES block
opens with a token that is neither `LOOP`, `MAP` nor a closing brace)
`parse_rule` returns `None` without consuming anything, `parse_rules`
repeats with unchanged state, and the parse runs forever: for every
fuel the embedding exhausts it. -/
theorem c2_parse_divergence : ∀ fuel : Nat, parseText c2text fuel = .more := by
  intro fuel
  have ht : parseText c2text fuel = parseMapping fuel c2toks 0 := by
    rw [parseText, c2text_tokens]
  rw [ht]
  match fuel with
  | 0 => rfl
  | 1 => rfl
  | 2 => rfl
  | (g + 3) =>
    have h4 : parseRules (g + 1) c2toks 4 = .more := by
      have hs : parseRules (g + 1) c2toks 4
          = (rulesLoop g c2toks 5 []).bind fun rs p2 =>
              (expectT c2toks p2 .RBRACE).bind fun _ p3 => .ok rs p3 := rfl
      rw [hs, rulesLoop_c2_stuck g []]
      rfl
    have h5 : mappingLoop (g + 2) c2toks 3 ⟨[], Option.none, Option.none, []⟩ = .more := by
      have hs : mappingLoop (g + 2) c2toks 3 ⟨[], Option.none, Option.none, []⟩
          = (parseRules (g + 1) c2toks 4).bind fun rs p2 =>
              mappingLoop (g + 1) c2toks p2 ⟨[], Option.none, Option.none, rs⟩ := rfl
      rw [hs, h4]
      rfl
    have h6 : parseMapping (g + 3) c2toks 0
        = (mappingLoop (g + 2) c2toks 3 ⟨[], Option.none, Option.none, []⟩).bind
            fun acc p5 =>
              (expectT c2toks p5 .RBRACE).bind fun _ p6 =>
                .ok { name := chars "m"
                      sources := if acc.sources.isEmpty then [defaultSource] else acc.sources
                      target := acc.target.getD defaultTarget
                      component := acc.component
                      rules := acc.rules } p6 := rfl
    rw [h6, h5]
    rfl

/-! ## C6: defaults for omitted SOURCE/TARGET -/

theorem mappingLoop_acc : ∀ {fuel : Nat} {toks : List Token} {pos : Nat}
    {acc acc' : MapAcc} {p' : Nat},
    mappingLoop fuel toks pos acc = .ok acc' p' →
    ((∀ t ∈ toks, t.kind ≠ .SOURCE) → acc'.sources = acc.sources) ∧
    ((∀ t ∈ toks, t.kind ≠ .TARGET) → acc'.target = acc.target) := by
  intro fuel
  induction fuel with
  | zero => intro toks pos acc acc' p' h; cases h
  | succ n ih =>
    intro toks pos acc acc' p' h
    rw [mappingLoop] at h
    cases hc : curTok toks pos with
    | none =>
      rw [hc] at h
      cases h
      exact ⟨fun _ => rfl, fun _ => rfl⟩
    | some t =>
      rw [hc] at h
      dsimp only at h
      by_cases hrb : t.kind = .RBRACE
      · rw [if_pos hrb] at h
        cases h
        exact ⟨fun _ => rfl, fun _ => rfl⟩
      · rw [if_neg hrb] at h
        cases hq : curTok toks (skipWS toks pos) with
        | none =>
          rw [show matchT toks (skipWS toks pos) .SOURCE
              = (Option.none, skipWS toks pos) from by simp [matchT, hq]] at h
          dsimp only at h
          rw [show matchT toks (skipWS toks pos) .TARGET
              = (Option.none, skipWS toks pos) from by simp [matchT, hq]] at h
          dsimp only at h
          rw [show matchT toks (skipWS toks pos) .COMPONENT
              = (Option.none, skipWS toks pos) from by simp [matchT, hq]] at h
          dsimp only at h
          rw [show matchT toks (skipWS toks pos) .RULES
              = (Option.none, skipWS toks pos) from by simp [matchT, hq]] at h
          dsimp only at h
          cases h
        | some t2 =>
          by_cases hS : t2.kind = .SOURCE
          · rw [show matchT toks (skipWS toks pos) .SOURCE
                = (some t2, skipWS toks pos + 1) from by simp [matchT, hq, hS]] at h
            dsimp only at h
            rcases PRes.bind_eq_ok h with ⟨s, q, _, hrec⟩
            rcases ih hrec with ⟨ih1, ih2⟩
            constructor
            · intro hns
              exact absurd hS (hns t2 (List.get?_mem hq))
            · intro hnt
              exact ih2 hnt
          · rw [show matchT toks (skipWS toks pos) .SOURCE
                = (Option.none, skipWS toks pos) from by simp [matchT, hq, hS]] at h
            dsimp only at h
            by_cases hT : t2.kind = .TARGET
            · rw [show matchT toks (skipWS toks pos) .TARGET
                  = (some t2, skipWS toks pos + 1) from by simp [matchT, hq, hT]] at h
              dsimp only at h
              rcases PRes.bind_eq_ok h with ⟨s, q, _, hrec⟩
              rcases ih hrec with ⟨ih1, ih2⟩
              constructor
              · intro hns
                exact ih1 hns
              · intro hnt
                exact absurd hT (hnt t2 (List.get?_mem hq))
            · rw [show matchT toks (skipWS toks pos) .TARGET
                  = (Option.none, skipWS toks pos) from by simp [matchT, hq, hT]] at h
              dsimp only at h
              by_cases hC : t2.kind = .COMPONENT
              · rw [show matchT toks (skipWS toks pos) .COMPONENT
                    = (some t2, skipWS toks pos + 1) from by simp [matchT, hq, hC]] at h
                dsimp only at h
                rcases PRes.bind_eq_ok h with ⟨s, q, _, hrec⟩
                rcases ih hrec with ⟨ih1, ih2⟩
                exact ⟨fun hns => ih1 hns, fun hnt => ih2 hnt⟩
              · rw [show matchT toks (skipWS toks pos) .COMPONENT
                    = (Option.none, skipWS toks pos) from by simp [matchT, hq, hC]] at h
                dsimp only at h
                by_cases hR : t2.kind = .RULES
                · rw [show matchT toks (skipWS toks pos) .RULES
                      = (some t2, skipWS toks pos + 1) from by simp [matchT, hq, hR]] at h
                  dsimp only at h
                  rcases PRes.bind_eq_ok h with ⟨rs, q, _, hrec⟩
                  rcases ih hrec with ⟨ih1, ih2⟩
                  exact ⟨fun hns => ih1 hns, fun hnt => ih2 hnt⟩
                · rw [show matchT toks (skipWS toks pos) .RULES
                      = (Option.none, skipWS toks pos) from by simp [matchT, hq, hR]] at h
                  dsimp only at h
                  cases h

/-- C6: whenever `parse_mapping` succeeds on a token stream containing
no `SOURCE` section, the result's source list is the single default
CSV spec with empty configuration carrying the alias `source1`; and
with no `TARGET` section, the target is the default CSV spec with
empty configuration. -/
theorem c6_omitted_blocks_defaulted (fuel : Nat) (toks : List Token)
    (pos p : Nat) (m : Mapping)
    (h : parseMapping fuel toks pos = .ok m p) :
    ((∀ t ∈ toks, t.kind ≠ .SOURCE) → m.sources = [defaultSource]) ∧
    ((∀ t ∈ toks, t.kind ≠ .TARGET) → m.target = defaultTarget) := by
  cases fuel with
  | zero => cases h
  | succ n =>
    rw [parseMapping] at h
    rcases PRes.bind_eq_ok h with ⟨t1, q1, h1, h⟩
    rcases PRes.bind_eq_ok h with ⟨ntok, q2, h2, h⟩
    rcases PRes.bind_eq_ok h with ⟨t3, q3, h3, h⟩
    rcases PRes.bind_eq_ok h with ⟨acc, q4, h4, h⟩
    rcases PRes.bind_eq_ok h with ⟨t5, q5, h5, h⟩
    cases h
    rcases mappingLoop_acc h4 with ⟨hs, ht⟩
    constructor
    · intro hns
      simp [hs hns]
    · intro hnt
      simp [ht hnt]

/-- The token stream of `MAPPING m { RULES { map name -> full_name } }`
(no `SOURCE`, no `TARGET`). -/
def c6toks : List Token :=
  [⟨.MAPPING, chars "MAPPING"⟩, ⟨.IDENT, chars "m"⟩, ⟨.LBRACE, [cLBrace]⟩,
   ⟨.RULES, chars "RULES"⟩, ⟨.LBRACE, [cLBrace]⟩,
   ⟨.MAP, chars "map"⟩, ⟨.IDENT, chars "name"⟩, ⟨.ARROW, chars "->"⟩,
   ⟨.IDENT, chars "full_name"⟩, ⟨.RBRACE, [cRBrace]⟩, ⟨.RBRACE, [cRBrace]⟩]

theorem c6toks_from_text :
    tokenize (chars "MAPPING m \x7b RULES \x7b map name -> full_name \x7d \x7d")
      = .ok c6toks := rfl

/-- The mapping parsed from `c6toks`. -/
def c6mExtract : Mapping :=
  match parseMapping 50 c6toks 0 with
  | .ok m _ => m
  | _ => ⟨[], [], defaultTarget, Option.none, []⟩

theorem c6_omitted_blocks_defaulted_witness :
    c6mExtract.sources = [defaultSource] ∧ c6mExtract.target = defaultTarget := by
  have hp : parseMapping 50 c6toks 0 = .ok c6mExtract 11 := rfl
  exact ⟨(c6_omitted_blocks_defaulted 50 c6toks 0 11 c6mExtract hp).1 (by decide),
         (c6_omitted_blocks_defaulted 50 c6toks 0 11 c6mExtract hp).2 (by decide)⟩

/-! ## C10: extra comma-separated source fields are discarded -/

theorem PRes.ok_bind {α β : Type} (a : α) (q : Nat) (f : α → Nat → PRes β) :
    (PRes.ok a q).bind f = f a q := rfl

theorem curTok_of_drop {toks : List Token} {pos : Nat} {t : Token}
    {rest : List Token} (h : toks.drop pos = t :: rest) :
    curTok toks pos = some t := by
  have hg := List.get?_drop toks pos 0
  rw [h] at hg
  simpa [curTok] using hg.symm

theorem drop_succ_of_drop {toks : List Token} {pos : Nat} {t : Token}
    {rest : List Token} (h : toks.drop pos = t :: rest) :
    toks.drop (pos + 1) = rest := by
  have h2 : List.drop 1 (List.drop pos toks) = List.drop (pos + 1) toks :=
    List.drop_drop 1 pos toks
  rw [h] at h2
  simpa using h2.symm

/-- The comma-interleaved `IDENT` tokens of a nonempty source-field
list. -/
def fieldToks : List (List Char) → List Token
  | [] => []
  | [f] => [⟨.IDENT, f⟩]
  | f :: g :: rest => ⟨.IDENT, f⟩ :: ⟨.COMMA, chars ","⟩ :: fieldToks (g :: rest)

/-- The token stream of `map f1, f2, ... -> tgt`. -/
def mkMapToks (fs : List (List Char)) (tgt : List Char) : List Token :=
  ⟨.MAP, chars "map"⟩ :: (fieldToks fs ++ [⟨.ARROW, chars "->"⟩, ⟨.IDENT, tgt⟩])

theorem fieldsLoop_run : ∀ {fs : List (List Char)} {f : List Char} {fuel : Nat}
    {toks : List Token} {pos : Nat} {acc : List Py} {rest : List Token},
    toks.drop pos = fieldToks (f :: fs) ++ ⟨.ARROW, chars "->"⟩ :: rest →
    fs.length + 1 ≤ fuel →
    fieldsLoop fuel toks pos acc
      = .ok (acc ++ (f :: fs).map Py.str) (pos + (fieldToks (f :: fs)).length) := by
  intro fs
  induction fs with
  | nil =>
    intro f fuel toks pos acc rest hd hfuel
    cases fuel with
    | zero => omega
    | succ n =>
      have hcur : curTok toks pos = some ⟨.IDENT, f⟩ := curTok_of_drop hd
      have hnext : curTok toks (pos + 1) = some ⟨.ARROW, chars "->"⟩ :=
        curTok_of_drop (drop_succ_of_drop hd)
      rw [fieldsLoop, skipWS_of_kind hcur (by simp) (by simp), hcur]
      simp [parseValue, hcur, hnext, fieldToks]
  | cons g gs ih =>
    intro f fuel toks pos acc rest hd hfuel
    cases fuel with
    | zero => simp at hfuel
    | succ n =>
      rw [show fieldToks (f :: g :: gs)
          = ⟨.IDENT, f⟩ :: ⟨.COMMA, chars ","⟩ :: fieldToks (g :: gs) from rfl] at hd
      have hcur : curTok toks pos = some ⟨.IDENT, f⟩ := curTok_of_drop hd
      have hd1 := drop_succ_of_drop hd
      have hnext : curTok toks (pos + 1) = some ⟨.COMMA, chars ","⟩ :=
        curTok_of_drop hd1
      have hd2 := drop_succ_of_drop hd1
      have hrec := @ih g n toks (pos + 1 + 1)
        (acc ++ [Py.str f]) rest hd2 (by simp at hfuel ⊢; omega)
      rw [fieldsLoop, skipWS_of_kind hcur (by simp) (by simp), hcur]
      simp [parseValue, hcur, hnext, hrec, fieldToks, List.append_assoc]
      omega


theorem curTok_of_drop_nil {toks : List Token} {pos : Nat}
    (h : toks.drop pos = []) : curTok toks pos = Option.none := by
  have hg := List.get?_drop toks pos 0
  rw [h] at hg
  simpa [curTok] using hg.symm

theorem modsLoop_at_end {fuel : Nat} {toks : List Token} {pos : Nat} {m : Mods}
    (hf : 1 ≤ fuel) (h : curTok toks pos = Option.none) :
    modsLoop fuel toks pos m = .ok m pos := by
  cases fuel with
  | zero => omega
  | succ k => rw [modsLoop, skipWS_of_none h, h]

/-- C10: a `MAP` rule listing several comma-separated source fields
parses successfully, but the resulting rule keeps only the first
listed field as `source_field`: the parsed rule is a function of the
first field and the target alone, so all later source fields are
silently absent from the AST (and hence from generation). -/
theorem c10_extra_source_fields_discarded (f : List Char)
    (fs : List (List Char)) (tgt : List Char) (fuel : Nat)
    (hfuel : fs.length + 3 ≤ fuel) :
    parseRule fuel (mkMapToks (f :: fs) tgt) 0
      = .ok (some { source_field := .str f, target_field := .str tgt,
                    transform := Option.none, condition := Option.none,
                    default_value := .none, data_type := Option.none })
          (mkMapToks (f :: fs) tgt).length := by
  cases fuel with
  | zero => omega
  | succ n =>
    rw [parseRule]
    rw [show matchT (mkMapToks (f :: fs) tgt) 0 .LOOP = (Option.none, 0) from rfl]
    dsimp only
    rw [show matchT (mkMapToks (f :: fs) tgt) 0 .MAP
        = (some ⟨.MAP, chars "map"⟩, 1) from rfl]
    dsimp only
    have hd0 : (mkMapToks (f :: fs) tgt).drop 1
        = fieldToks (f :: fs) ++ ⟨.ARROW, chars "->"⟩ :: [⟨.IDENT, tgt⟩] := rfl
    rw [fieldsLoop_run hd0 (by omega)]
    rw [PRes.ok_bind]
    have hdA : (mkMapToks (f :: fs) tgt).drop (1 + (fieldToks (f :: fs)).length)
        = ⟨.ARROW, chars "->"⟩ :: [⟨.IDENT, tgt⟩] := by
      have hdd := List.drop_drop (fieldToks (f :: fs)).length 1 (mkMapToks (f :: fs) tgt)
      rw [hd0] at hdd
      rw [← hdd]
      exact List.drop_left _ _
    have hA : curTok (mkMapToks (f :: fs) tgt) (1 + (fieldToks (f :: fs)).length)
        = some ⟨.ARROW, chars "->"⟩ := curTok_of_drop hdA
    have hdI := drop_succ_of_drop hdA
    have hI : curTok (mkMapToks (f :: fs) tgt) (1 + (fieldToks (f :: fs)).length + 1)
        = some ⟨.IDENT, tgt⟩ := curTok_of_drop hdI
    have hdE := drop_succ_of_drop hdI
    have hE : curTok (mkMapToks (f :: fs) tgt)
        (1 + (fieldToks (f :: fs)).length + 1 + 1) = Option.none :=
      curTok_of_drop_nil hdE
    rw [skipWS_of_kind hA (by simp) (by simp)]
    rw [show expectT (mkMapToks (f :: fs) tgt) (1 + (fieldToks (f :: fs)).length)
        .ARROW = .ok ⟨.ARROW, chars "->"⟩ (1 + (fieldToks (f :: fs)).length + 1)
        from by simp [expectT, hA]]
    rw [PRes.ok_bind]
    rw [skipWS_of_kind hI (by simp) (by simp), hI]
    have hm := @modsLoop_at_end n (mkMapToks (f :: fs) tgt)
      (1 + (fieldToks (f :: fs)).length + 1 + 1)
      (⟨Option.none, Option.none, .none, Option.none⟩ : Mods) (by omega) hE
    have hlen : (mkMapToks (f :: fs) tgt).length
        = 1 + (fieldToks (f :: fs)).length + 1 + 1 := by
      simp [mkMapToks]
      omega
    rw [hlen]
    cases tgt with
    | nil => simp [parseValue, hI, hm, pyTruthy, PRes.bind]
    | cons c cs => simp [parseValue, hI, hm, pyTruthy, PRes.bind]

theorem c10_extra_source_fields_discarded_witness :
    parseRule 10 (mkMapToks [chars "a", chars "b", chars "c"] (chars "t")) 0
      = .ok (some { source_field := .str (chars "a"),
                    target_field := .str (chars "t"),
                    transform := Option.none, condition := Option.none,
                    default_value := .none, data_type := Option.none })
          (mkMapToks [chars "a", chars "b", chars "c"] (chars "t")).length :=
  c10_extra_source_fields_discarded (chars "a") [chars "b", chars "c"]
    (chars "t") 10 (by decide)

/-! ## C1: default substitution exactly on the missing sentinel -/

/-- The transform and coercion wrappers applied after the default
stage of `_generate_rule_processing`. -/
def postStages (rule : Rule) (e : PyExpr) : PyExpr :=
  let e2 := match rule.transform with
    | some t => if t.isEmpty then e else .trans e (funcName t) (argsStr t)
    | Option.none => e
  match rule.data_type with
  | some dt => if dt.isEmpty then e2 else .coerce (typeMapGet dt) e2
  | Option.none => e2

/-- C1: for every rule with a default value set, the generated value
expression factors through the default-substitution conditional
applied to the raw fetch; that conditional evaluates to the default
exactly when the fetched value is the missing sentinel `None` — a
present-but-falsy value (empty string, `0`) is kept — and the built
expression is independent of any `IF` condition on the rule (the
condition only guards the assignment site). -/
theorem c1_default_only_on_missing (rule : Rule) (rec : Record)
    (h : rule.default_value ≠ Py.none) :
    genValueExpr rule = postStages rule (.dflt (srcExpr rule) rule.default_value)
    ∧ evalBase (.dflt (srcExpr rule) rule.default_value) rec
        = some (if fetchVal rule rec = Py.none then rule.default_value
                else fetchVal rule rec)
    ∧ (∀ c, genValueExpr { rule with condition := c } = genValueExpr rule) := by
  refine ⟨?_, ?_, fun c => rfl⟩
  · simp [genValueExpr, postStages, h]
  · have hb : evalBase (srcExpr rule) rec = some (fetchVal rule rec) := by
      rw [srcExpr, fetchVal]
      split
      · rfl
      · rfl
    simp [evalBase, hb]

/-- The rule of `map status -> Status IF amount > 1000 DEFAULT "premium"`. -/
def c1Rule : Rule :=
  ⟨.str (chars "status"), .str (chars "Status"), Option.none,
   some (chars "amount > 1000"), .str (chars "premium"), Option.none⟩

/-- A record where `status` is present but falsy (the empty string). -/
def c1Rec : Record := [(chars "status", Py.str [])]

theorem c1_default_only_on_missing_witness :
    evalBase (.dflt (srcExpr c1Rule) c1Rule.default_value) c1Rec
      = some (Py.str []) := by
  have h := (c1_default_only_on_missing c1Rule c1Rec (by decide)).2.1
  rw [h]
  rfl

/-! ## C9: transform-then-coerce composition -/

/-- The expression below the transform layer: the fetch, wrapped by
the default substitution when one is set. -/
def baseLayer (rule : Rule) : PyExpr :=
  if rule.default_value ≠ Py.none then .dflt (srcExpr rule) rule.default_value
  else srcExpr rule

/-- The transform layer built from a truthy transform string. -/
def transLayer (rule : Rule) (t : List Char) : PyExpr :=
  .trans (baseLayer rule) (funcName t) (argsStr t)

/-- C9: for every rule with both a (truthy) transform and a (truthy)
data type, the generated value expression is the type coercion applied
to the transform invocation — transform first, coercion outside — and
the rendered text is the coercion text wrapped around the
`transform_value` call carrying the transform's function name. -/
theorem c9_transform_then_coerce (rule : Rule) (t dt : List Char)
    (ht : rule.transform = some t) (htne : t.isEmpty = false)
    (hd : rule.data_type = some dt) (hdne : dt.isEmpty = false) :
    genValueExpr rule = .coerce (typeMapGet dt) (transLayer rule t)
    ∧ render (genValueExpr rule)
        = typeMapGet dt ++ chars "(" ++ render (transLayer rule t)
          ++ chars ") if " ++ render (transLayer rule t)
          ++ chars " is not None else None"
    ∧ render (transLayer rule t)
        = chars "transform_value(" ++ render (baseLayer rule) ++ chars ", \""
          ++ funcName t ++ chars "\", " ++ argsStr t ++ chars ")" := by
  have h1 : genValueExpr rule = .coerce (typeMapGet dt) (transLayer rule t) := by
    simp [genValueExpr, transLayer, baseLayer, ht, hd, htne, hdne]
  refine ⟨h1, ?_, rfl⟩
  rw [h1]
  rfl

/-- The rule of `map price -> Price TRANSFORM float() AS float`. -/
def c9Rule : Rule :=
  ⟨.str (chars "price"), .str (chars "Price"), some (chars "float()"),
   Option.none, .none, some (chars "float")⟩

theorem c9_transform_then_coerce_witness :
    genValueExpr c9Rule = .coerce (chars "float") (transLayer c9Rule (chars "float()"))
    ∧ render (genValueExpr c9Rule)
        = chars "float(transform_value(source_item.get(\"price\"), \"float\", )) if transform_value(source_item.get(\"price\"), \"float\", ) is not None else None" := by
  have h := c9_transform_then_coerce c9Rule (chars "float()") (chars "float")
    rfl rfl rfl rfl
  refine ⟨h.1, ?_⟩
  rw [h.2.1, h.2.2]
  rfl

/-! ## C4: loop rules in generation -/

theorem funcName_loopT (P : List Char) :
    funcName (chars "loop(" ++ P ++ chars ")") = chars "loop" := rfl

theorem argsStr_loopT (P : List Char) :
    argsStr (chars "loop(" ++ P ++ chars ")") = P := by
  unfold argsStr
  rw [funcName_loopT]
  have h1 : (chars "loop(" ++ P ++ chars ")").drop ((chars "loop").length + 1)
      = P ++ chars ")" := by
    have h2 : (chars "loop(" ++ P ++ chars ")")
        = chars "loop(" ++ (P ++ chars ")") := by
      rw [List.append_assoc]
    rw [h2]
    have h3 : (chars "loop").length + 1 = (chars "loop(").length := rfl
    rw [h3]
    exact List.drop_left _ _
  rw [h1]
  have h4 : (chars ")" : List Char) = [')'] := rfl
  rw [h4]
  exact List.dropLast_concat

theorem funcName_loopA (P : List Char) :
    funcName (chars "loop(" ++ (P ++ chars ")")) = chars "loop" := rfl

theorem argsStr_loopA (P : List Char) :
    argsStr (chars "loop(" ++ (P ++ chars ")")) = P := by
  have h := argsStr_loopT P
  rwa [List.append_assoc] at h

theorem isSubstr_loopPre (P : List Char) :
    isSubstr (chars "loop(") (chars "loop(" ++ P ++ chars ")") = true := by
  simp [isSubstr, List.isPrefixOf, chars]

/-- C4 counterexample: for the loop rule parsed from
`LOOP items { map a -> b }` the canonical (`mapper.py`) generator does
not emit a no-op marker: it emits an ordinary field assignment of the
fixed target `loop`, applying the unknown transform `loop` to the
fetched collection. -/
theorem c4_counterexample :
    parseRule 20
      [⟨.LOOP, chars "LOOP"⟩, ⟨.IDENT, chars "items"⟩, ⟨.LBRACE, [cLBrace]⟩,
       ⟨.MAP, chars "map"⟩, ⟨.IDENT, chars "a"⟩, ⟨.ARROW, chars "->"⟩,
       ⟨.IDENT, chars "b"⟩, ⟨.RBRACE, [cRBrace]⟩] 0
      = .ok (some ⟨.str (chars "items"), .str (chars "loop"),
          some (chars "loop(\x27items\x27)"), Option.none, .none, Option.none⟩) 8
    ∧ genRuleProcessing
        ⟨.str (chars "items"), .str (chars "loop"),
         some (chars "loop(\x27items\x27)"), Option.none, .none, Option.none⟩ 8
      = [chars "        output_item[\"loop\"] = transform_value(source_item.get(\"items\"), \"loop\", \x27items\x27)"] :=
  ⟨rfl, rfl⟩

/-- C4 (amended): the parser does discard a loop rule's nested body —
whenever `parse_loop_rule` succeeds, its result is the collapsed
marker record (target `loop`, transform `loop(repr(collection))`, no
condition, default or data type), so no nested rule reaches
generation; but the canonical `mapper.py` generator does not
special-case it: it emits one ordinary assignment of the field `loop`
through `transform_value(..., "loop", repr(collection))`. Only the
historical `parser.py` variant emits a no-op comment marker for it. -/
theorem c4_loop_rule_generation (fuel : Nat) (toks : List Token) (pos p : Nat)
    (r : Rule) (h : parseLoopRule fuel toks pos = .ok r p) :
    r.target_field = .str (chars "loop")
    ∧ r.transform = some (chars "loop(" ++ pyRepr r.source_field ++ chars ")")
    ∧ r.condition = Option.none ∧ r.default_value = .none
    ∧ r.data_type = Option.none
    ∧ genRuleProcessing r 8
        = [List.replicate 8 ' ' ++ chars "output_item[\"" ++ chars "loop"
            ++ chars "\"] = "
            ++ render (.trans (srcExpr r) (chars "loop") (pyRepr r.source_field))]
    ∧ genRuleCodeVariant r
        = [chars "    # Loop through " ++ pyStr r.source_field] := by
  cases fuel with
  | zero => cases h
  | succ n =>
    rw [parseLoopRule] at h
    rcases PRes.bind_eq_ok h with ⟨tok, q1, h1, h⟩
    rcases PRes.bind_eq_ok h with ⟨t2, q2, h2, h⟩
    rcases PRes.bind_eq_ok h with ⟨body, q3, h3, h⟩
    rcases PRes.bind_eq_ok h with ⟨t4, q4, h4, h⟩
    cases h
    refine ⟨rfl, rfl, rfl, rfl, rfl, ?_, ?_⟩
    · simp [genValueExpr, genRuleProcessing, pyStr, funcName_loopA, argsStr_loopA,
        show (chars "loop(" : List Char) ≠ [] from by decide,
        show pyTruthy (Py.str (chars "loop")) = true from rfl]
    · have hsub : isSubstr (chars "loop(")
          (strOfOptTransform (some (chars "loop(" ++ (pyRepr (.str tok.lexeme)
            ++ chars ")")))) = true := by
        have h := isSubstr_loopPre (pyRepr (.str tok.lexeme))
        simpa [strOfOptTransform, List.append_assoc] using h
      simp [genRuleCodeVariant, hsub,
        show pyTruthy (Py.str (chars "loop")) = true from rfl]

/-- Tokens of `LOOP items \x7b map a -> b \x7d`, as positioned after the LOOP keyword. -/
def c4toks : List Token :=
  [⟨.LOOP, chars "LOOP"⟩, ⟨.IDENT, chars "items"⟩, ⟨.LBRACE, [cLBrace]⟩,
   ⟨.MAP, chars "map"⟩, ⟨.IDENT, chars "a"⟩, ⟨.ARROW, chars "->"⟩,
   ⟨.IDENT, chars "b"⟩, ⟨.RBRACE, [cRBrace]⟩]

/-- The collapsed marker record `parse_loop_rule` builds for that input. -/
def c4Rule : Rule :=
  ⟨.str (chars "items"), .str (chars "loop"),
   some (chars "loop(\x27items\x27)"), Option.none, .none, Option.none⟩

theorem c4_loop_rule_generation_witness :
    c4Rule.target_field = .str (chars "loop")
    ∧ c4Rule.transform = some (chars "loop(" ++ pyRepr c4Rule.source_field ++ chars ")")
    ∧ c4Rule.condition = Option.none ∧ c4Rule.default_value = .none
    ∧ c4Rule.data_type = Option.none
    ∧ genRuleProcessing c4Rule 8
        = [List.replicate 8 ' ' ++ chars "output_item[\"" ++ chars "loop"
            ++ chars "\"] = "
            ++ render (.trans (srcExpr c4Rule) (chars "loop") (pyRepr c4Rule.source_field))]
    ∧ genRuleCodeVariant c4Rule
        = [chars "    # Loop through " ++ pyStr c4Rule.source_field] :=
  c4_loop_rule_generation 19 c4toks 1 8 c4Rule (by rfl)

/-! ## C8: the component-driven record stream -/

/-- Source text of a two-source mapping with a `COMPONENT` block. -/
def c8textW : List Char := chars "MAPPING m \x7b SOURCE CSV AS s1 \x7b \x7d SOURCE CSV AS s2 \x7b \x7d COMPONENT DB \x7b query: \"SELECT * FROM s1\" \x7d TARGET CSV \x7b \x7d RULES \x7b map a -> b \x7d \x7d"

/-- Source text of the same mapping without the `COMPONENT` block. -/
def c8text : List Char := chars "MAPPING m \x7b SOURCE CSV \x7b \x7d TARGET CSV \x7b \x7d RULES \x7b map a -> b \x7d \x7d"

/-- The token stream of `c8textW`. -/
def c8toksW : List Token :=
  [⟨.MAPPING, chars "MAPPING"⟩, ⟨.IDENT, chars "m"⟩, ⟨.LBRACE, [cLBrace]⟩,
   ⟨.SOURCE, chars "SOURCE"⟩, ⟨.CSV, chars "CSV"⟩, ⟨.AS, chars "AS"⟩,
   ⟨.IDENT, chars "s1"⟩, ⟨.LBRACE, [cLBrace]⟩, ⟨.RBRACE, [cRBrace]⟩,
   ⟨.SOURCE, chars "SOURCE"⟩, ⟨.CSV, chars "CSV"⟩, ⟨.AS, chars "AS"⟩,
   ⟨.IDENT, chars "s2"⟩, ⟨.LBRACE, [cLBrace]⟩, ⟨.RBRACE, [cRBrace]⟩,
   ⟨.COMPONENT, chars "COMPONENT"⟩, ⟨.DB, chars "DB"⟩, ⟨.LBRACE, [cLBrace]⟩,
   ⟨.IDENT, chars "query"⟩, ⟨.COLON, chars ":"⟩,
   ⟨.STRING, [cQuote] ++ chars "SELECT * FROM s1" ++ [cQuote]⟩,
   ⟨.RBRACE, [cRBrace]⟩,
   ⟨.TARGET, chars "TARGET"⟩, ⟨.CSV, chars "CSV"⟩, ⟨.LBRACE, [cLBrace]⟩,
   ⟨.RBRACE, [cRBrace]⟩,
   ⟨.RULES, chars "RULES"⟩, ⟨.LBRACE, [cLBrace]⟩,
   ⟨.MAP, chars "map"⟩, ⟨.IDENT, chars "a"⟩, ⟨.ARROW, chars "->"⟩,
   ⟨.IDENT, chars "b"⟩, ⟨.RBRACE, [cRBrace]⟩, ⟨.RBRACE, [cRBrace]⟩]

/-- The token stream of `c8text`. -/
def c8toks : List Token :=
  [⟨.MAPPING, chars "MAPPING"⟩, ⟨.IDENT, chars "m"⟩, ⟨.LBRACE, [cLBrace]⟩,
   ⟨.SOURCE, chars "SOURCE"⟩, ⟨.CSV, chars "CSV"⟩, ⟨.LBRACE, [cLBrace]⟩,
   ⟨.RBRACE, [cRBrace]⟩,
   ⟨.TARGET, chars "TARGET"⟩, ⟨.CSV, chars "CSV"⟩, ⟨.LBRACE, [cLBrace]⟩,
   ⟨.RBRACE, [cRBrace]⟩,
   ⟨.RULES, chars "RULES"⟩, ⟨.LBRACE, [cLBrace]⟩,
   ⟨.MAP, chars "map"⟩, ⟨.IDENT, chars "a"⟩, ⟨.ARROW, chars "->"⟩,
   ⟨.IDENT, chars "b"⟩, ⟨.RBRACE, [cRBrace]⟩, ⟨.RBRACE, [cRBrace]⟩]

/-- The first parsed source: CSV aliased `s1`, empty config. -/
def c8SrcA : SourceSpec := ⟨chars "CSV", some (chars "s1"), []⟩

/-- The second parsed source: CSV aliased `s2`, empty config. -/
def c8SrcB : SourceSpec := ⟨chars "CSV", some (chars "s2"), []⟩

/-- The parsed component: a DB block whose config holds the query. -/
def c8Comp : SourceSpec :=
  ⟨chars "DB", Option.none, [(chars "query", .scalar (.str (chars "SELECT * FROM s1")))]⟩

/-- The single `map a -> b` rule of both mappings. -/
def c8RuleM : Rule :=
  ⟨.str (chars "a"), .str (chars "b"), Option.none, Option.none, .none, Option.none⟩

/-- The mapping `parse_mapping` returns for `c8textW`. -/
def mWith : Mapping :=
  ⟨chars "m", [c8SrcA, c8SrcB], ⟨chars "CSV", Option.none, []⟩, some c8Comp, [c8RuleM]⟩

/-- The mapping `parse_mapping` returns for `c8text`: the `component`
key is stored as `None`. -/
def c8Parsed : Mapping :=
  ⟨chars "m", [⟨chars "CSV", Option.none, []⟩], ⟨chars "CSV", Option.none, []⟩,
   Option.none, [c8RuleM]⟩

/-- The exact program text the canonical generator emits for the
two-source component mapping (one line per list entry). -/
def c8ExpectedLines : List (List Char) :=
  [ chars "",
    chars "# Main Mapping Function",
    chars "def execute_mapping(inputs: dict, output_path: str) -> List[Dict]:",
    chars "    \"\"\"Execute the mapping and return transformed data.",
    chars "       inputs is a dict of \x7b alias: file_path \x7d",
    chars "    \"\"\"",
    chars "    sources_data = \x7b\x7d",
    chars "    input_for_s1 = inputs.get(\"s1\")",
    chars "    if not input_for_s1:",
    chars "        pass # handle missing input gracefully if needed",
    chars "    else:",
    chars "        sources_data[\"s1\"] = read_source(input_for_s1, has_header=True)",
    chars "    input_for_s2 = inputs.get(\"s2\")",
    chars "    if not input_for_s2:",
    chars "        pass # handle missing input gracefully if needed",
    chars "    else:",
    chars "        sources_data[\"s2\"] = read_source(input_for_s2, has_header=True)",
    chars "",
    chars "    # --- Component Preparation (In-Memory DB) ---",
    chars "    import sqlite3",
    chars "    conn = sqlite3.connect(\":memory:\")",
    chars "    cursor = conn.cursor()",
    chars "    if \"s1\" in sources_data and sources_data[\"s1\"]:",
    chars "        # Dynamically create table and insert data for alias s1",
    chars "        first_item = sources_data[\"s1\"][0]",
    chars "        columns = list(first_item.keys())",
    chars "        col_defs = \", \".join([f\"\x7bc\x7d TEXT\" for c in columns])",
    chars "        cursor.execute(f\"CREATE TABLE s1 (\x7bcol_defs\x7d)\")",
    chars "        ",
    chars "        placeholders = \", \".join([\"?\" for _ in columns])",
    chars "        insert_sql = f\"INSERT INTO s1 (\x7b\", \".join(columns)\x7d) VALUES (\x7bplaceholders\x7d)\"",
    chars "        for item in sources_data[\"s1\"]:",
    chars "            cursor.execute(insert_sql, [str(item.get(c)) if item.get(c) is not None else None for c in columns])",
    chars "        conn.commit()",
    chars "    if \"s2\" in sources_data and sources_data[\"s2\"]:",
    chars "        # Dynamically create table and insert data for alias s2",
    chars "        first_item = sources_data[\"s2\"][0]",
    chars "        columns = list(first_item.keys())",
    chars "        col_defs = \", \".join([f\"\x7bc\x7d TEXT\" for c in columns])",
    chars "        cursor.execute(f\"CREATE TABLE s2 (\x7bcol_defs\x7d)\")",
    chars "        ",
    chars "        placeholders = \", \".join([\"?\" for _ in columns])",
    chars "        insert_sql = f\"INSERT INTO s2 (\x7b\", \".join(columns)\x7d) VALUES (\x7bplaceholders\x7d)\"",
    chars "        for item in sources_data[\"s2\"]:",
    chars "            cursor.execute(insert_sql, [str(item.get(c)) if item.get(c) is not None else None for c in columns])",
    chars "        conn.commit()",
    chars "    ",
    chars "    # Execute Component query to produce final source items",
    chars "    cursor.execute(\"\"\"SELECT * FROM s1\"\"\")",
    chars "    columns = [desc[0] for desc in cursor.description]",
    chars "    source_items = [dict(zip(columns, row)) for row in cursor.fetchall()]",
    chars "    conn.close()",
    chars "",
    chars "    # Transform items",
    chars "    output_items = []",
    chars "    for source_item in source_items:",
    chars "        output_item = \x7b\x7d",
    chars "        output_item[\"b\"] = source_item.get(\"a\")",
    chars "        output_items.append(output_item)",
    chars "",
    chars "    write_target(output_items, output_path)",
    chars "",
    chars "    return output_items",
    chars "",
    chars "if __name__ == \"__main__\":",
    chars "    import sys",
    chars "    # We map all sys.argv pairs (except last as output) intoinputs",
    chars "    if len(sys.argv) >= 3:",
    chars "        output_path = sys.argv[-1]",
    chars "        inputs = \x7b\x7d",
    chars "        if len(sys.argv) == 3:",
    chars "            inputs[\"source1\"] = sys.argv[1]",
    chars "        else:",
    chars "            # Format: alias1 path1 alias2 path2 output",
    chars "            for i in range(1, len(sys.argv)-1, 2):",
    chars "                inputs[sys.argv[i]] = sys.argv[i+1]",
    chars "        result = execute_mapping(inputs, output_path)",
    chars "        print(f\"Mapping complete: \x7blen(result)\x7d items\")",
    chars "    else:",
    chars "        print(\"Usage: python generated.py [alias1 input1 ...] <output>\")" ]

/-- C8 (code_bug): with a `COMPONENT` block the generated program does
materialize every source into an in-memory store as one table per
alias with all columns typed `TEXT`, executes the component query
against it and drives rule application from the query result -- the
emitted text is exactly `c8ExpectedLines`. But the no-component half
of the claim fails: the parser always stores the `component` key (as
`None` when the block is absent), so `_generate_main_function` raises
an `AttributeError` on `None.get` before emitting anything, and the
first-source fallback branch is unreachable through the pipeline. -/
theorem c8_component_record_stream :
    tokenize c8textW = .ok c8toksW
    ∧ parseMapping 60 c8toksW 0 = .ok mWith 34
    ∧ genMain mWith = .ok c8ExpectedLines
    ∧ tokenize c8text = .ok c8toks
    ∧ parseMapping 30 c8toks 0 = .ok c8Parsed 19
    ∧ c8Parsed.component = Option.none
    ∧ genMain c8Parsed = .error .attrNoneGet :=
  ⟨rfl, rfl, rfl, rfl, rfl, rfl, rfl⟩
